import Mathlib

/-!
Verification development for the cran_lua repository: a combinator-parser
framework (`parsit`) and a Lua 5.4 grammar built on it.

The embedding follows the Rust sources:
  - `parsit/src/lexer.rs`   : token-stream construction (`LexIt`)
  - `parsit/src/parser.rs`  : driver (`zero_or_more`, `one_or_more`, `validate_eof`)
  - `src/parser/tokens.rs`  : the Lua lexer (logos token definitions + callbacks)
  - `src/parser/ast.rs`     : the AST and its `Display` pretty-printer
  - `src/parser/expression.rs` : operator-priority folder (`expr_priority`, `fold`)
  - `src/parser/mod.rs`     : the Lua grammar (`LuaParser`)

The crate module `parsit::step` (the `Step` result algebra) and the `seq!` /
`wrap!` macros are declared and used by the sources but their definitions are
not part of the source tree; those are modelled from the specification
(sections 4.2, 4.3 and 9 of the spec), as marked in the doc comments below.

Numbers are modelled with `Int` (the Rust code uses `i64` / `isize`, with
overflow turned into a lexer error by the fallible logos callbacks);
floating-point literal values are kept as their source slice, since no
verified property depends on them. Recursion in the grammar and in the
repetition combinators is modelled with an explicit fuel argument; every
concrete evaluation supplies ample fuel.
-/

namespace Lua

/-- Parsing error taxonomy, from `parsit/src/lib.rs` (`ParseError`).
`BadToken` carries the offending slice and its byte range (modelled as the
two endpoints of the `Range<usize>`). -/
inductive ParseError where
  | BadToken (slice : String) (start stop : Nat)
  | FailedOnValidation (msg : String) (pos : Nat)
  | FinishedOnFail
  | ReachedEOF (pos : Nat)
  | UnreachedEOF (pos : Nat)
deriving Repr, DecidableEq

/-- Modelled from the spec: the three-variant `Step` result of the
`parsit::step` module (spec section 3.3): `Success(value, next_pos)`,
`Fail(pos_of_last_attempt)`, `Error(ParseError)`. -/
inductive Step (T : Type) where
  | Success (v : T) (next : Nat)
  | Fail (pos : Nat)
  | Error (e : ParseError)
deriving Repr

/-- The stub value produced by value-less token matches,
from `parsit/src/parser.rs` (`EmptyToken`). -/
structure EmptyToken where
deriving Repr, DecidableEq

/-- Modelled from the spec: `map(f)` maps `Success(v,n)` to `Success(f v, n)`;
Fail and Error pass through (spec section 4.2). -/
def Step.map {T R : Type} (s : Step T) (f : T → R) : Step R :=
  match s with
  | .Success v n => .Success (f v) n
  | .Fail p => .Fail p
  | .Error e => .Error e

/-- Modelled from the spec: `then(g)` — on Success invoke `g` at the new
position, discarding the current value; Fail and Error pass through
(spec section 4.2). Named `then_f` because `then` is reserved in Lean. -/
def Step.then_f {T R : Type} (s : Step T) (g : Nat → Step R) : Step R :=
  match s with
  | .Success _ n => g n
  | .Fail p => .Fail p
  | .Error e => .Error e

/-- Modelled from the spec: `then_zip(g)` — on Success invoke `g`; if that
succeeds with `(v2,n2)`, produce `Success((v1,v2),n2)`; any failure
short-circuits (spec section 4.2). -/
def Step.then_zip {T R : Type} (s : Step T) (g : Nat → Step R) : Step (T × R) :=
  match s with
  | .Success v n =>
    match g n with
    | .Success w m => .Success (v, w) m
    | .Fail p => .Fail p
    | .Error e => .Error e
  | .Fail p => .Fail p
  | .Error e => .Error e

/-- Modelled from the spec: `take_left` projects the left component of a pair
produced by `then_zip` (spec section 4.2). -/
def Step.take_left {T R : Type} (s : Step (T × R)) : Step T :=
  s.map Prod.fst

/-- Modelled from the spec: `take_right` projects the right component of a
pair produced by `then_zip` (spec section 4.2). -/
def Step.take_right {T R : Type} (s : Step (T × R)) : Step R :=
  s.map Prod.snd

/-- Modelled from the spec: `then_skip(g)` — like `then_zip` but discards the
right value (spec section 4.2). -/
def Step.then_skip {T R : Type} (s : Step T) (g : Nat → Step R) : Step T :=
  (s.then_zip g).take_left

/-- Modelled from the spec: `then_or_none_zip(g)` — like `then_zip` but if `g`
fails or hits EOF, produce `Success((v1, None), n1)`; errors other than EOF
propagate (spec section 4.2). In every call site of the grammar the right
parser already yields an `Option` (it ends in `or_none`), so the right
component type is `Option R` and a success of `g` is paired unchanged. -/
def Step.then_or_none_zip {T R : Type} (s : Step T) (g : Nat → Step (Option R)) :
    Step (T × Option R) :=
  match s with
  | .Success v n =>
    match g n with
    | .Success w m => .Success (v, w) m
    | .Fail _ => .Success (v, none) n
    | .Error (.ReachedEOF _) => .Success (v, none) n
    | .Error e => .Error e
  | .Fail p => .Fail p
  | .Error e => .Error e

/-- Modelled from the spec: `then_or_val(g, default)` family — on Success run
`g`; when `g` fails or hits EOF substitute the default value of the right
component and keep the left position; the result keeps only the right
component, as in `then` (spec section 4.2, `then_or_default`). -/
def Step.then_or_val {T R : Type} (s : Step T) (g : Nat → Step R) (d : R) : Step R :=
  match s with
  | .Success _ n =>
    match g n with
    | .Success w m => .Success w m
    | .Fail _ => .Success d n
    | .Error (.ReachedEOF _) => .Success d n
    | .Error e => .Error e
  | .Fail p => .Fail p
  | .Error e => .Error e

/-- Modelled from the spec: `then_or_default_zip(g)` — same shape as
`then_or_none_zip`, substituting the default value of the right component
when `g` fails or hits EOF (spec section 4.2). -/
def Step.then_or_val_zip {T R : Type} (s : Step T) (g : Nat → Step R) (d : R) :
    Step (T × R) :=
  match s with
  | .Success v n =>
    match g n with
    | .Success w m => .Success (v, w) m
    | .Fail _ => .Success (v, d) n
    | .Error (.ReachedEOF _) => .Success (v, d) n
    | .Error e => .Error e
  | .Fail p => .Fail p
  | .Error e => .Error e

/-- Modelled from the spec: `or(alt)` — if the current step is Fail, run the
alternative from the original position (the input position of the left
operand, passed here explicitly as `orig`); Success and Error pass through
(spec sections 4.2 and 4.2 backtracking discipline). -/
def Step.or_at {T : Type} (s : Step T) (orig : Nat) (alt : Nat → Step T) : Step T :=
  match s with
  | .Fail _ => alt orig
  | other => other

/-- Modelled from the spec: `or_none` turns Fail (and only Fail) into
`Success(None, pos)` (spec section 4.2). -/
def Step.or_none {T : Type} (s : Step T) : Step (Option T) :=
  match s with
  | .Success v n => .Success (some v) n
  | .Fail p => .Success none p
  | .Error e => .Error e

/-- Modelled from the spec: `or_from(pos)` captures a starting position so
subsequent `or` calls reset to it rather than to the furthest attempt
(spec section 4.2). The captured state is a pair of the initial position
and the current step. -/
structure Alt (T : Type) where
  init : Nat
  current : Step T

/-- Modelled from the spec: capture the chain's starting position. -/
def Step.or_from {T : Type} (s : Step T) (pos : Nat) : Alt T :=
  ⟨pos, s⟩

/-- Modelled from the spec: an `or` in an `or_from` chain — if the chain is
still Fail, run the alternative from the captured initial position;
Success and Error pass through (spec section 4.2). -/
def Alt.or {T : Type} (a : Alt T) (alt : Nat → Step T) : Alt T :=
  match a.current with
  | .Fail _ => ⟨a.init, alt a.init⟩
  | other => ⟨a.init, other⟩

/-- Modelled from the spec: closing an `or_from` chain yields its current
step (the `into` conversion from `Alt` back to `Step`). -/
def Alt.into_step {T : Type} (a : Alt T) : Step T :=
  a.current

/-- Modelled from the spec: `validate(pred)` — if the predicate accepts the
value pass through, otherwise convert to `Error(FailedOnValidation(msg,pos))`
(spec section 4.2). -/
def Step.validate {T : Type} (s : Step T) (pred : T → Option String) : Step T :=
  match s with
  | .Success v n =>
    match pred v with
    | none => .Success v n
    | some msg => .Error (.FailedOnValidation msg n)
  | other => other

/-- Modelled from the spec: the `into` coercion of a decisive chain into a
`Result`: Success yields Ok, a remaining Fail is promoted to
`FinishedOnFail`, an Error is passed through (spec sections 4.2 and 7). -/
def Step.into_result {T : Type} (s : Step T) : Except ParseError T :=
  match s with
  | .Success v _ => .ok v
  | .Fail _ => .error .FinishedOnFail
  | .Error e => .error e

/-- Modelled from the spec: the accumulation loop of `then_multi_zip` —
keep applying `g` from the advancing position while it succeeds, and on the
first Fail (or on reaching EOF, which repetition treats as a stop, spec
section 4.3) return the accumulated list at the last successful position;
other errors propagate (spec section 4.2). The Rust loop is unbounded;
`fuel` bounds the unrolling and is always supplied amply. -/
def then_multi_loop {R : Type} (g : Nat → Step R) : Nat → Nat → Step (List R)
  | 0, pos => .Success [] pos
  | fuel + 1, pos =>
    match g pos with
    | .Success v n => (then_multi_loop g fuel n).map (fun l => v :: l)
    | .Fail _ => .Success [] pos
    | .Error (.ReachedEOF _) => .Success [] pos
    | .Error e => .Error e

/-- Modelled from the spec: `then_multi_zip(g)` — zero-or-more repetition of
`g` after the current step, accumulating values into a list
(spec section 4.2). -/
def Step.then_multi_zip {T R : Type} (s : Step T) (fuel : Nat) (g : Nat → Step R) :
    Step (T × List R) :=
  match s with
  | .Success v n =>
    match then_multi_loop g fuel n with
    | .Success l m => .Success (v, l) m
    | .Fail p => .Fail p
    | .Error e => .Error e
  | .Fail p => .Fail p
  | .Error e => .Error e

/-- Modelled from the spec: `merge` flattens a Step carrying `(first, list)`
as produced by `then_multi_zip` into a single list (spec section 4.2). -/
def Step.merge {T : Type} (s : Step (T × List T)) : Step (List T) :=
  s.map (fun x => x.1 :: x.2)

/-- From `parsit/src/parser.rs` (`ParseIt::zero_or_more`): repeatedly apply
`then`; a Fail or a ReachedEOF of the underlying chain yields
`Success([], pos)`; anything else passes through. -/
def zero_or_more {T : Type} (fuel : Nat) (pos : Nat) (thenP : Nat → Step T) :
    Step (List T) :=
  match ((thenP pos).then_multi_zip fuel thenP).merge with
  | .Fail _ => .Success [] pos
  | .Error (.ReachedEOF _) => .Success [] pos
  | success => success

/-- From `parsit/src/parser.rs` (`ParseIt::one_or_more`): like
`zero_or_more`, but an empty result list is converted to `Fail(pos)`. -/
def one_or_more {T : Type} (fuel : Nat) (pos : Nat) (thenP : Nat → Step T) :
    Step (List T) :=
  match zero_or_more fuel pos thenP with
  | .Success [] _ => .Fail pos
  | other => other

/-- From `parsit/src/parser.rs` (`ParseIt::validate_eof`): if the step is
`Success(v, pos)` with `pos` different from the token-stream length, convert
to `Error(UnreachedEOF(pos))`; otherwise pass the step through. -/
def validate_eof {T : Type} (len : Nat) (res : Step T) : Step T :=
  match res with
  | .Success v pos => if len ≠ pos then .Error (.UnreachedEOF pos) else .Success v pos
  | other => other

/-- Modelled from the spec: the expansion of the `seq!(pos => elem, sep)`
macro — `elem (sep elem)*`, i.e. the element followed by a repetition of
separator-prefixed elements, merged into one list (spec sections 4.6, 9). -/
def seq_p {T S : Type} (fuel : Nat) (elem : Nat → Step T) (sep : Nat → Step S)
    (pos : Nat) : Step (List T) :=
  ((elem pos).then_multi_zip fuel (fun p => (sep p).then_f elem)).merge

/-- Modelled from the spec: the expansion of the `seq!(pos => elem, sep,)`
macro with optional trailing separator — `elem (sep elem)* sep?`
(spec sections 4.7, 9). -/
def seq_trail {T S : Type} (fuel : Nat) (elem : Nat → Step T) (sep : Nat → Step S)
    (pos : Nat) : Step (List T) :=
  ((seq_p fuel elem sep pos).then_or_none_zip (fun p => (sep p).or_none)).take_left

/-- Modelled from the spec: the expansion of the `wrap!(pos => l;body;r)`
macro — the body bracketed by two delimiters, keeping the body's value
(spec section 9). -/
def wrap3 {A B C : Type} (l : Nat → Step A) (body : Nat → Step B) (r : Nat → Step C)
    (pos : Nat) : Step B :=
  ((l pos).then_f body).then_skip r

/-- Modelled from the spec: the expansion of the
`wrap!(pos => l; body or default; r)` macro — a bracketed body whose failure
is replaced by the default value (spec section 9). -/
def wrap3_or {A B C : Type} (l : Nat → Step A) (body : Nat → Step B) (d : B)
    (r : Nat → Step C) (pos : Nat) : Step B :=
  ((l pos).then_or_val body d).then_skip r

/-- Numeric literal value, from `src/parser/ast.rs` (`Number`). The Rust
variants carry `i64` / `f64` / `i64` / `isize`; integers are modelled as
`Int` (the logos callbacks turn overflow into a lexing error), and a float
keeps its source slice because no verified property depends on the `f64`
value. -/
inductive Number where
  | Int (v : Int)
  | Float (slice : String)
  | Hex (v : Int)
  | Binary (v : Int)
deriving Repr, DecidableEq

set_option maxHeartbeats 1600000 in
/-- The Lua token set, from `src/parser/tokens.rs` (`Token`). Skip-only
variants (`Comment`, `LineComment`, `WS`) and the `#[error]` sentinel are
not materialised: the lexer model below emits them as skip or error items
directly. -/
inductive Token where
  | Id (s : String)
  | StringLit (s : String)
  | Digit (n : Number)
  | And | Break | Do | Else | Elseif | End | False | For | Function | Goto
  | If | In | Local | Nil | Not | Or | Repeat | Return | Then | True | Until
  | While
  | Plus | Minus | Mult | Div | FDiv | Mod | Caret | Hash
  | Ampersand | Tilde | Stick | RShift | LShift
  | Eq | TEq | Gt | Ge | Lt | Le | Assign
  | LParen | RParen | LBrace | RBrace | LBrack | RBrack
  | DColon | Colon | Semi | Comma | Dot | EllipsisIn | EllipsisOut
deriving Repr

/-- Equality of tokens (the pattern match of the `token!` macro compares a
read token against the literal pattern; a derived decidable equality on
this many constructors produces an impractically large term, so the
comparison is written out). -/
def Token.beq : Token → Token → Bool
  | .Id a, .Id b => a == b
  | .StringLit a, .StringLit b => a == b
  | .Digit a, .Digit b => a == b
  | .And, .And => true
  | .Break, .Break => true
  | .Do, .Do => true
  | .Else, .Else => true
  | .Elseif, .Elseif => true
  | .End, .End => true
  | .False, .False => true
  | .For, .For => true
  | .Function, .Function => true
  | .Goto, .Goto => true
  | .If, .If => true
  | .In, .In => true
  | .Local, .Local => true
  | .Nil, .Nil => true
  | .Not, .Not => true
  | .Or, .Or => true
  | .Repeat, .Repeat => true
  | .Return, .Return => true
  | .Then, .Then => true
  | .True, .True => true
  | .Until, .Until => true
  | .While, .While => true
  | .Plus, .Plus => true
  | .Minus, .Minus => true
  | .Mult, .Mult => true
  | .Div, .Div => true
  | .FDiv, .FDiv => true
  | .Mod, .Mod => true
  | .Caret, .Caret => true
  | .Hash, .Hash => true
  | .Ampersand, .Ampersand => true
  | .Tilde, .Tilde => true
  | .Stick, .Stick => true
  | .RShift, .RShift => true
  | .LShift, .LShift => true
  | .Eq, .Eq => true
  | .TEq, .TEq => true
  | .Gt, .Gt => true
  | .Ge, .Ge => true
  | .Lt, .Lt => true
  | .Le, .Le => true
  | .Assign, .Assign => true
  | .LParen, .LParen => true
  | .RParen, .RParen => true
  | .LBrace, .LBrace => true
  | .RBrace, .RBrace => true
  | .LBrack, .LBrack => true
  | .RBrack, .RBrack => true
  | .DColon, .DColon => true
  | .Colon, .Colon => true
  | .Semi, .Semi => true
  | .Comma, .Comma => true
  | .Dot, .Dot => true
  | .EllipsisIn, .EllipsisIn => true
  | .EllipsisOut, .EllipsisOut => true
  | _, _ => false

/-- The `(?&letter)` subpattern `[a-zA-Z_]` of the logos token definitions. -/
def is_letter (c : Char) : Bool :=
  decide ((97 ≤ c.toNat ∧ c.toNat ≤ 122) ∨ (65 ≤ c.toNat ∧ c.toNat ≤ 90) ∨ c.toNat = 95)

/-- The character class `[0-9]`. -/
def is_digit (c : Char) : Bool :=
  decide (48 ≤ c.toNat ∧ c.toNat ≤ 57)

/-- The character class `[0-9a-f]` of the hex literal pattern. -/
def is_hex_digit (c : Char) : Bool :=
  is_digit c || decide (97 ≤ c.toNat ∧ c.toNat ≤ 102)

/-- Length of the longest prefix whose characters satisfy `p`. -/
def count_while (p : Char → Bool) (cs : List Char) : Nat :=
  (cs.takeWhile p).length

/-- Maximal match length of the `Id` pattern
`(?&letter)((?&letter)|(?&digit))*`; since `_` is a letter and a single
digit matches the digit subpattern, this is a letter followed by letters
and digits. Returns 0 when the pattern does not match. -/
def match_id : List Char → Nat
  | [] => 0
  | c :: cs =>
    if is_letter c then 1 + count_while (fun d => is_letter d || is_digit d) cs
    else 0

/-- Maximal match length of the `(?&digit)` subpattern
`[0-9]([0-9_]*[0-9])?`: a digit, then the longest digit-or-underscore run
that still ends in a digit. Returns 0 when it does not match. -/
def match_digit_run : List Char → Nat
  | [] => 0
  | c :: cs =>
    if is_digit c then
      let run := cs.takeWhile (fun d => is_digit d || d == '_')
      1 + (run.reverse.dropWhile (fun d => d == '_')).length
    else 0

/-- Maximal match length of the `(?&exp)` subpattern `[eE][+-]?[0-9]+`.
Returns 0 when it does not match. -/
def match_exp : List Char → Nat
  | [] => 0
  | c :: cs =>
    if c == 'e' || c == 'E' then
      match cs with
      | d :: ds =>
        if d == '+' || d == '-' then
          let n := count_while is_digit ds
          if n == 0 then 0 else 2 + n
        else
          let n := count_while is_digit cs
          if n == 0 then 0 else 1 + n
      | [] => 0
    else 0

/-- Match length of the integer literal pattern `-?(?&digit)`. -/
def match_int : List Char → Nat
  | '-' :: cs => let n := match_digit_run cs; if n == 0 then 0 else 1 + n
  | cs => match_digit_run cs

/-- Match length of the exponent integer pattern `-?(?&digit)(?&exp)`. -/
def match_int_exp (cs : List Char) : Nat :=
  let n := match_int cs
  if n == 0 then 0
  else
    let m := match_exp (cs.drop n)
    if m == 0 then 0 else n + m

/-- Match length of the float pattern
`-?(?&digit)?\.(?&digit)(?&exp)?[fFdD]?`. -/
def match_float (cs : List Char) : Nat :=
  let p1 : Nat × List Char :=
    match cs with
    | '-' :: cs2 => (1, cs2)
    | _ => (0, cs)
  let d1 := match_digit_run p1.2
  match p1.2.drop d1 with
  | '.' :: cs3 =>
    let d2 := match_digit_run cs3
    if d2 == 0 then 0
    else
      let e := match_exp (cs3.drop d2)
      let suf :=
        match cs3.drop (d2 + e) with
        | c :: _ => if c == 'f' || c == 'F' || c == 'd' || c == 'D' then 1 else 0
        | [] => 0
      p1.1 + d1 + 1 + d2 + e + suf
  | _ => 0

/-- Match length of the binary literal pattern `0[bB][01][01]*`. -/
def match_binary : List Char → Nat
  | '0' :: b :: cs =>
    if b == 'b' || b == 'B' then
      let n := count_while (fun d => d == '0' || d == '1') cs
      if n == 0 then 0 else 2 + n
    else 0
  | _ => 0

/-- Maximal match length of the hex digit run
`[0-9a-f](([0-9a-f]|[_])*[0-9a-f])?`. -/
def match_hex_run : List Char → Nat
  | [] => 0
  | c :: cs =>
    if is_hex_digit c then
      let run := cs.takeWhile (fun d => is_hex_digit d || d == '_')
      1 + (run.reverse.dropWhile (fun d => d == '_')).length
    else 0

/-- Match length of the hex literal pattern
`-?0x[0-9a-f](([0-9a-f]|[_])*[0-9a-f])?`. -/
def match_hex (cs : List Char) : Nat :=
  let p1 : Nat × List Char :=
    match cs with
    | '-' :: cs2 => (1, cs2)
    | _ => (0, cs)
  match p1.2 with
  | '0' :: 'x' :: cs3 =>
    let n := match_hex_run cs3
    if n == 0 then 0 else p1.1 + 2 + n
  | _ => 0

/-- Body of a quoted string literal after the opening quote, following
`([^q\\]|\\t|\\u|\\n|\\q)*q` for quote character `q`: ordinary characters
other than the quote and the backslash, or one of the four allowed escape
pairs, until the closing quote. Returns the length including the closing
quote, or `none` when the pattern does not match. -/
def match_qt_body (q : Char) : List Char → Option Nat
  | [] => none
  | c :: cs =>
    if c == q then some 1
    else if c == '\\' then
      match cs with
      | d :: ds =>
        if d == 't' || d == 'u' || d == 'n' || d == q then
          (match_qt_body q ds).map (fun k => 2 + k)
        else none
      | [] => none
    else (match_qt_body q cs).map (fun k => 1 + k)

/-- Match length of a quoted string literal with quote character `q`. -/
def match_qt (q : Char) (cs : List Char) : Nat :=
  match cs with
  | c :: rest =>
    if c == q then
      match match_qt_body q rest with
      | some k => 1 + k
      | none => 0
    else 0
  | [] => 0

/-- Match of the long-bracket opening `\[=*\[`; returns the number of `=`
characters when it matches (total open length is that plus 2). -/
def match_block_open : List Char → Option Nat
  | '[' :: cs =>
    let eqs := count_while (fun d => d == '=') cs
    match cs.drop eqs with
    | '[' :: _ => some eqs
    | _ => none
  | _ => none

/-- Match of the long-bracket comment opening `--\[=*\[`; returns the
number of `=` characters (total open length is that plus 4). -/
def match_lcb_open : List Char → Option Nat
  | '-' :: '-' :: cs => match_block_open cs
  | _ => none

/-- Match length of the line comment pattern
`--\[?=*[^=|\[\r\n]*[\r\n]?`. -/
def match_comment_line : List Char → Nat
  | '-' :: '-' :: cs =>
    let p1 : Nat × List Char :=
      match cs with
      | '[' :: cs2 => (1, cs2)
      | _ => (0, cs)
    let eqs := count_while (fun d => d == '=') p1.2
    let rest1 := p1.2.drop eqs
    let body := count_while
      (fun d => !(d == '=' || d == '|' || d == '[' || d == '\r' || d == '\n')) rest1
    let nl :=
      match rest1.drop body with
      | c :: _ => if c == '\r' || c == '\n' then 1 else 0
      | [] => 0
    2 + p1.1 + eqs + body + nl
  | _ => 0

/-- Match length of the shebang pattern `#![^\r\n]*`. -/
def match_shebang : List Char → Nat
  | '#' :: '!' :: cs => 2 + count_while (fun d => !(d == '\r' || d == '\n')) cs
  | _ => 0

/-- The whitespace class `[ \t\u000C\r\n]`. -/
def is_ws (c : Char) : Bool :=
  c == ' ' || c == '\t' || c.toNat == 12 || c == '\r' || c == '\n'

/-- Match length of the whitespace pattern `[ \t\u000C\r\n]+`. -/
def match_ws (cs : List Char) : Nat :=
  count_while is_ws cs

/-- Whether the first list is a prefix of the second. -/
def starts_with_l : List Char → List Char → Bool
  | [], _ => true
  | _ :: _, [] => false
  | p :: ps, c :: cs => p == c && starts_with_l ps cs

/-- Index of the first occurrence of `pat` as a sublist (the model of
`str::find` used by the long-bracket callbacks). -/
def find_sub (pat : List Char) : List Char → Option Nat
  | [] => if pat.isEmpty then some 0 else none
  | c :: cs =>
    if starts_with_l pat (c :: cs) then some 0
    else (find_sub pat cs).map (fun i => i + 1)

/-- The literal `#[token]` patterns of `src/parser/tokens.rs`, keywords and
punctuation. -/
def literal_tokens : List (String × Token) := [
  ("and", .And), ("break", .Break), ("do", .Do), ("else", .Else),
  ("elseif", .Elseif), ("end", .End), ("false", .False), ("for", .For),
  ("function", .Function), ("goto", .Goto), ("if", .If), ("in", .In),
  ("local", .Local), ("nil", .Nil), ("not", .Not), ("or", .Or),
  ("repeat", .Repeat), ("return", .Return), ("then", .Then), ("true", .True),
  ("until", .Until), ("while", .While),
  ("+", .Plus), ("-", .Minus), ("*", .Mult), ("/", .Div), ("//", .FDiv),
  ("%", .Mod), ("^", .Caret), ("#", .Hash), ("&", .Ampersand), ("~", .Tilde),
  ("|", .Stick), (">>", .RShift), ("<<", .LShift), ("==", .Eq), ("~=", .TEq),
  (">", .Gt), (">=", .Ge), ("<", .Lt), ("<=", .Le), ("=", .Assign),
  ("(", .LParen), (")", .RParen), ("\x7b", .LBrace), ("\x7d", .RBrace),
  ("[", .LBrack), ("]", .RBrack), ("::", .DColon), (":", .Colon),
  (";", .Semi), (",", .Comma), (".", .Dot), ("..", .EllipsisIn),
  ("...", .EllipsisOut)]

/-- The longest literal token matching at the head of the input; distinct
literals of equal length cannot both match, so the choice is unambiguous. -/
def best_literal (cs : List Char) : Option (Nat × Token) :=
  literal_tokens.foldl
    (fun acc p =>
      let l := p.1.toList
      if starts_with_l l cs then
        match acc with
        | some q => if l.length > q.1 then some (l.length, p.2) else acc
        | none => some (l.length, p.2)
      else acc)
    none

/-- Value of the digit characters as a natural number, base 10. -/
def digits_to_nat (cs : List Char) : Nat :=
  cs.foldl (fun a c => a * 10 + (c.toNat - 48)) 0

/-- The absolute value of `i64::MIN`, i.e. `2^63`; logos callbacks that
overflow an `i64` (or `isize`) produce the error token. -/
def i64_min_abs : Nat := 9223372036854775808

/-- The `number` callback: `slice.parse::<i64>()`, which succeeds exactly on
an optional minus followed by plain decimal digits within the `i64` range
(underscores and exponents make it fail, producing the error token). -/
def int_of_slice (cs : List Char) : Option Number :=
  match cs with
  | '-' :: ds =>
    if ds.all is_digit && !ds.isEmpty then
      let v := digits_to_nat ds
      if v ≤ i64_min_abs then some (.Int (-(v : Int))) else none
    else none
  | ds =>
    if ds.all is_digit && !ds.isEmpty then
      let v := digits_to_nat ds
      if v < i64_min_abs then some (.Int (v : Int)) else none
    else none

/-- The `float` callback: `slice.parse::<f64>()` succeeds unless the slice
contains an underscore or a trailing `f`/`F`/`d`/`D` suffix; the `f64`
value itself is kept as the slice (not modelled further). -/
def float_of_slice (cs : List Char) : Option Number :=
  if cs.any (fun d => d == '_') then none
  else
    match cs.getLast? with
    | some c =>
      if c == 'f' || c == 'F' || c == 'd' || c == 'D' then none
      else some (.Float (String.mk cs))
    | none => none

/-- The `binary` callback: `isize::from_str_radix(&slice[2..], 2)`. -/
def binary_of_slice (cs : List Char) : Option Number :=
  let ds := cs.drop 2
  let v := ds.foldl (fun a c => a * 2 + (c.toNat - 48)) 0
  if v < i64_min_abs then some (.Binary (v : Int)) else none

/-- Value of a lowercase hex digit character. -/
def hex_digit_val (c : Char) : Nat :=
  if is_digit c then c.toNat - 48 else c.toNat - 87

/-- The `hex` callback: `i64::from_str_radix(slice.trim_start_matches("0x"),
16)`. A leading minus leaves the `0x` prefix in place and an underscore is
not a hex digit, so both produce the error token. -/
def hex_of_slice (cs : List Char) : Option Number :=
  match cs with
  | '0' :: 'x' :: ds =>
    if ds.any (fun d => d == '_') then none
    else
      let v := ds.foldl (fun a c => a * 16 + hex_digit_val c) 0
      if v < i64_min_abs then some (.Hex (v : Int)) else none
  | _ => none

/-- One lexing step: either a materialised token, a skipped span, or an
error span (the logos error sentinel), each with its consumed length. -/
inductive LexItem where
  | tok (t : Token) (len : Nat)
  | skipped (len : Nat)
  | bad (slice : String) (len : Nat)

/-- Token-or-error outcome of a fallible number callback. -/
def mk_num (cs : List Char) (len : Nat) (f : List Char → Option Number) : LexItem :=
  let sl := cs.take len
  match f sl with
  | some n => .tok (.Digit n) len
  | none => .bad (String.mk sl) len

/-- The `parse_block_text` callback of the long-bracket string: the closing
bracket is the opening with `[` replaced by `]`; when it occurs in the
remainder the enclosed text is emitted and the input is bumped past it,
otherwise the result is the error token over the opening slice. -/
def mk_block_string (cs : List Char) (eqs : Nat) : LexItem :=
  let openLen := eqs + 2
  let close := ']' :: (List.replicate eqs '=' ++ [']'])
  let rem := cs.drop openLen
  match find_sub close rem with
  | some i => .tok (.StringLit (String.mk (rem.take i))) (openLen + i + openLen)
  | none => .bad (String.mk (cs.take openLen)) openLen

/-- The `parse_line_comment` callback of the long-bracket comment: like the
long-bracket string but the span is skipped; an unterminated comment is the
error token over the opening slice. -/
def mk_line_comment (cs : List Char) (eqs : Nat) : LexItem :=
  let openLen := eqs + 4
  let close := ']' :: (List.replicate eqs '=' ++ [']'])
  let rem := cs.drop openLen
  match find_sub close rem with
  | some i => .skipped (openLen + i + (eqs + 2))
  | none => .bad (String.mk (cs.take openLen)) openLen

/-- Pick the candidate with the longest pattern match; on a tie the earlier
candidate wins, so listing literal tokens first models the logos priority
of `#[token]` literals over the identifier regex. -/
def pick_best (l : List (Nat × LexItem)) : Option (Nat × LexItem) :=
  l.foldl
    (fun acc c =>
      if c.1 == 0 then acc
      else
        match acc with
        | none => some c
        | some b => if c.1 > b.1 then some c else acc)
    none

/-- One step of the logos lexer at the head of `cs`: all token patterns are
matched and the longest match wins (literals beating the identifier regex
on ties); when nothing matches, a single-character error token is
produced. -/
def lex_one (cs : List Char) : LexItem :=
  let cands : List (Nat × LexItem) :=
    (match best_literal cs with
     | some q => [(q.1, .tok q.2 q.1)]
     | none => []) ++
    (let n := match_id cs
     if n == 0 then [] else [(n, .tok (.Id (String.mk (cs.take n))) n)]) ++
    (let n := match_qt '"' cs
     if n == 0 then []
     else [(n, .tok (.StringLit (String.mk ((cs.take n).drop 1 |>.dropLast))) n)]) ++
    (let n := match_qt '\'' cs
     if n == 0 then []
     else [(n, .tok (.StringLit (String.mk ((cs.take n).drop 1 |>.dropLast))) n)]) ++
    (match match_block_open cs with
     | some eqs => [(eqs + 2, mk_block_string cs eqs)]
     | none => []) ++
    (let n := match_int cs
     if n == 0 then [] else [(n, mk_num cs n int_of_slice)]) ++
    (let n := match_int_exp cs
     if n == 0 then [] else [(n, mk_num cs n int_of_slice)]) ++
    (let n := match_float cs
     if n == 0 then [] else [(n, mk_num cs n float_of_slice)]) ++
    (let n := match_binary cs
     if n == 0 then [] else [(n, mk_num cs n binary_of_slice)]) ++
    (let n := match_hex cs
     if n == 0 then [] else [(n, mk_num cs n hex_of_slice)]) ++
    (match match_lcb_open cs with
     | some eqs => [(eqs + 4, mk_line_comment cs eqs)]
     | none => []) ++
    (let n := match_comment_line cs
     if n == 0 then [] else [(n, .skipped n)]) ++
    (let n := match_shebang cs
     if n == 0 then [] else [(n, .skipped n)]) ++
    (let n := match_ws cs
     if n == 0 then [] else [(n, .skipped n)])
  match pick_best cands with
  | some q => q.2
  | none => .bad (String.mk (cs.take 1)) 1

/-- An element of the lexed stream as seen by `LexIt::new`: a non-skip
token, or the error sentinel with its slice and byte range. -/
inductive LexedItem where
  | tok (t : Token)
  | err (slice : String) (start stop : Nat)
deriving Repr

/-- Run the lexer over the whole input, producing tokens and (at most) a
final error item; skipped spans are filtered as logos does. Each step
consumes at least one character, so fuel `length + 1` is ample. -/
def lex_items_go : Nat → List Char → Nat → List LexedItem
  | 0, _, _ => []
  | _, [], _ => []
  | fuel + 1, c :: cs, off =>
    match lex_one (c :: cs) with
    | .tok t len => .tok t :: lex_items_go fuel ((c :: cs).drop len) (off + len)
    | .skipped len => lex_items_go fuel ((c :: cs).drop len) (off + len)
    | .bad slice len => [.err slice off (off + len)]

/-- The lexed item stream of a source text. -/
def lex_items (src : String) : List LexedItem :=
  lex_items_go (src.toList.length + 1) src.toList 0

/-- The collection loop of `LexIt::new` from `parsit/src/lexer.rs`: push
tokens until the first error item, which aborts the construction with
`BadToken(slice, span)`. -/
def lexit_new_items : List LexedItem → Except ParseError (List Token)
  | [] => .ok []
  | .tok t :: rest => (lexit_new_items rest).map (fun l => t :: l)
  | .err s a b :: _ => .error (.BadToken s a b)

/-- Token-stream construction (`LexIt::new`) for a source text. -/
def lexit_new (src : String) : Except ParseError (List Token) :=
  lexit_new_items (lex_items src)

/-- Identifier node, from `src/parser/ast.rs` (`Id`). -/
structure Id where
  v : String
deriving Repr, DecidableEq

/-- String literal node, from `src/parser/ast.rs` (`Text`). -/
structure Text where
  text : String
deriving Repr, DecidableEq

/-- Unary operator, from `src/parser/ast.rs` (`UnaryType`). -/
inductive UnaryType where
  | Not
  | Hash
  | Minus
  | Tilde
deriving Repr, DecidableEq

/-- Binary operator, from `src/parser/ast.rs` (`BinaryType`). -/
inductive BinaryType where
  | Mult
  | Div
  | Mod
  | FDiv
  | Add
  | Sub
  | Pov
  | Concat
  | Gt
  | Ge
  | Lt
  | Le
  | Eq
  | TEq
  | And
  | Amper
  | Stick
  | Tilde
  | LShift
  | RShift
  | Or
deriving Repr, DecidableEq

/-- Function parameter list, from `src/parser/ast.rs` (`FnParams`). -/
inductive FnParams where
  | Args (ids : List Id)
  | VarArgs
  | WithVarArgs (ids : List Id)
deriving Repr, DecidableEq

/-- Function name with optional method tail, from `src/parser/ast.rs`
(`FnName`): dotted names plus `last`, set for the `:method` form. -/
structure FnName where
  names : List Id
  last : Option Id
deriving Repr, DecidableEq

/-- Attributed local name, from `src/parser/ast.rs` (`AttrName`). -/
inductive AttrName where
  | Name (n : Id)
  | AttrName (n : Id) (attr : Id)
deriving Repr, DecidableEq

set_option maxHeartbeats 3200000 in
mutual

/-- Expression node, from `src/parser/ast.rs` (`Expression`). -/
inductive Expression where
  | Nil
  | False
  | True
  | Number (n : Number)
  | Text (t : Text)
  | VarArgs
  | FnDef (params : FnParams) (body : Block)
  | PrefixExpr (call : FnCall)
  | TableConstructor (t : TableConst)
  | Unary (op : UnaryType) (e : Expression)
  | Binary (lhs : Expression) (op : BinaryType) (rhs : Expression)

/-- Table field key, from `src/parser/ast.rs` (`FieldKey`). -/
inductive FieldKey where
  | Expr (e : Expression)
  | Id (i : Id)

/-- Table field, from `src/parser/ast.rs` (`Field`). -/
inductive Field where
  | Pair (k : FieldKey) (v : Expression)
  | Value (v : Expression)

/-- Table constructor, from `src/parser/ast.rs` (`TableConst`). -/
inductive TableConst where
  | mk (fields : List Field)

/-- Call arguments, from `src/parser/ast.rs` (`Args`). -/
inductive Args where
  | Expressions (es : List Expression)
  | Constructor (t : TableConst)
  | String (t : Text)

/-- Call arguments with optional method name, from `src/parser/ast.rs`
(`NameArgs`). -/
inductive NameArgs where
  | Args (a : Args)
  | NameArgs (n : Id) (a : Args)

/-- Variable suffix, from `src/parser/ast.rs` (`VarSuffix`): call-like
elements followed by exactly one terminal suffix. -/
inductive VarSuffix where
  | mk (var : List NameArgs) (suffix : Suffix)

/-- Terminal suffix, from `src/parser/ast.rs` (`Suffix`). -/
inductive Suffix where
  | Expr (e : Expression)
  | Id (i : Id)

/-- Variable head, from `src/parser/ast.rs` (`VarHead`). -/
inductive VarHead where
  | Expr (e : Expression) (s : VarSuffix)
  | Id (i : Id)

/-- Variable, from `src/parser/ast.rs` (`Var`). -/
inductive Var where
  | mk (head : VarHead) (tail : List VarSuffix)

/-- Either a variable or a parenthesised expression, from
`src/parser/ast.rs` (`VarOrExpr`). -/
inductive VarOrExpr where
  | Expr (e : Expression)
  | Var (v : Var)

/-- Function call, from `src/parser/ast.rs` (`FnCall`). -/
inductive FnCall where
  | mk (head : VarOrExpr) (args : List NameArgs)

/-- Block, from `src/parser/ast.rs` (`Block`). -/
inductive Block where
  | Void (sts : List Statement)
  | Return (sts : List Statement) (es : List Expression)

/-- While statement, from `src/parser/ast.rs` (`While`). -/
inductive While where
  | mk (cond : Expression) (body : Block)

/-- Repeat statement, from `src/parser/ast.rs` (`Repeat`). -/
inductive Repeat where
  | mk (until_e : Expression) (body : Block)

/-- One `if`/`elseif` branch, from `src/parser/ast.rs` (`IfBranch`). -/
inductive IfBranch where
  | mk (cond : Expression) (body : Block)

/-- Numeric for loop, from `src/parser/ast.rs` (`PlainFor`). -/
inductive PlainFor where
  | mk (init : Id × Expression) (border : Expression) (step : Option Expression)
      (body : Block)

/-- Generic for loop, from `src/parser/ast.rs` (`ExprFor`). -/
inductive ExprFor where
  | mk (names : List Id) (expressions : List Expression) (body : Block)

/-- If statement, from `src/parser/ast.rs` (`If`). -/
inductive If where
  | If (main : IfBranch) (elseifs : List IfBranch)
  | IfElse (main : IfBranch) (elseifs : List IfBranch) (else_b : Block)

/-- For statement, from `src/parser/ast.rs` (`For`). -/
inductive For where
  | Plain (p : PlainFor)
  | ForCol (e : ExprFor)

/-- Function definition, from `src/parser/ast.rs` (`FnDef`). -/
inductive FnDef where
  | mk (name : FnName) (params : FnParams) (body : Block)

/-- Statement, from `src/parser/ast.rs` (`Statement`). -/
inductive Statement where
  | Empty
  | Assignment (vs : List Var) (es : List Expression)
  | FnCall (c : FnCall)
  | Label (i : Id)
  | Break
  | Goto (i : Id)
  | Do (b : Block)
  | While (w : While)
  | Repeat (r : Repeat)
  | If (i : If)
  | For (f : For)
  | FnDef (d : FnDef)
  | LocalFnDef (d : FnDef)
  | LocalAttrNames (ns : List AttrName) (es : List Expression)

end

/-- Operator binding powers, from `src/parser/expression.rs`
(`expr_priority`): left and right binding power per binary operator. -/
def expr_priority (tp : BinaryType) : Int × Int :=
  match tp with
  | .Pov => (14, 13)
  | .Mult | .Div | .FDiv | .Mod => (11, 11)
  | .Add | .Sub => (10, 10)
  | .Concat => (9, 8)
  | .LShift | .RShift => (7, 7)
  | .Amper => (6, 6)
  | .Tilde => (5, 5)
  | .Stick => (4, 4)
  | .Eq | .Le | .Lt | .Gt | .Ge | .TEq => (3, 3)
  | .And => (2, 2)
  | .Or => (1, 1)

/-- The folding loop of `src/parser/expression.rs` (`fold`): while the queue
head's left binding power is at least `min_priority`, pop `(op, rhs)`,
recursively fold the right side with the operator's right binding power,
and combine. The Rust loop mutates the shared queue, so the model returns
the remaining queue alongside the folded expression; the Rust recursion is
unbounded and `fuel` (amply supplied as `length + 1`) bounds it. -/
def fold : Nat → Expression → List (BinaryType × Expression) → Int →
    Expression × List (BinaryType × Expression)
  | 0, lhs, elems, _ => (lhs, elems)
  | f + 1, lhs, elems, min_priority =>
    match elems with
    | [] => (lhs, [])
    | (tp, rhs0) :: rest =>
      let pr := expr_priority tp
      if pr.1 ≥ min_priority then
        let r := fold f rhs0 rest pr.2
        fold f (.Binary lhs tp r.1) r.2 min_priority
      else (lhs, elems)

/-- Entry point of the folder, from `src/parser/expression.rs`
(`fold_with_priority`): fold with minimum priority 0. -/
def fold_with_priority (first : Expression)
    (elems : List (BinaryType × Expression)) : Expression :=
  (fold (elems.length + 1) first elems 0).1

/-- From `src/parser/ast.rs` (`Expression::fold`): delegates to
`fold_with_priority`. -/
def Expression.fold (first : Expression)
    (elems : List (BinaryType × Expression)) : Expression :=
  fold_with_priority first elems

/-- The arm of the `token!` macro once a token has been read: a matching
pattern yields `Success(value, pos + 1)`, anything else `Fail(pos)`. -/
def tkn_hit {T : Type} (pos : Nat) : Option T → Step T
  | some v => .Success v (pos + 1)
  | none => .Fail pos

/-- The expansion of the `token!` macro over `LexIt::token`
(`parsit/src/parser.rs`, `parsit/src/lexer.rs`): look the token up at `pos`
(`Error(ReachedEOF(pos))` past the end), return `Success(value, pos + 1)` on
a matching pattern and `Fail(pos)` otherwise. -/
def tkn {T : Type} (toks : List Token) (pos : Nat) (f : Token → Option T) : Step T :=
  match toks.get? pos with
  | none => .Error (.ReachedEOF pos)
  | some t => tkn_hit pos (f t)

/-- A value-less single-token match, `token!(self.token(pos) => k)`. -/
def kw (toks : List Token) (pos : Nat) (k : Token) : Step EmptyToken :=
  tkn toks pos fun t => if Token.beq t k then some ⟨⟩ else none

/-- From `src/parser/mod.rs` (`LuaParser::id`). -/
def id (toks : List Token) (pos : Nat) : Step Id :=
  tkn toks pos fun t => match t with | .Id v => some ⟨v⟩ | _ => none

/-- From `src/parser/mod.rs` (`LuaParser::text`). -/
def text (toks : List Token) (pos : Nat) : Step Text :=
  tkn toks pos fun t => match t with | .StringLit v => some ⟨v⟩ | _ => none

/-- From `src/parser/mod.rs` (`LuaParser::number`). -/
def number (toks : List Token) (pos : Nat) : Step Number :=
  tkn toks pos fun t => match t with | .Digit n => some n | _ => none

/-- From `src/parser/mod.rs` (`LuaParser::comma`). -/
def comma (toks : List Token) (pos : Nat) : Step EmptyToken :=
  kw toks pos .Comma

/-- From `src/parser/mod.rs` (`LuaParser::semi`). -/
def semi (toks : List Token) (pos : Nat) : Step EmptyToken :=
  kw toks pos .Semi

/-- From `src/parser/mod.rs` (`LuaParser::l_br`). -/
def l_br (toks : List Token) (pos : Nat) : Step EmptyToken :=
  kw toks pos .LBrack

/-- From `src/parser/mod.rs` (`LuaParser::r_br`). -/
def r_br (toks : List Token) (pos : Nat) : Step EmptyToken :=
  kw toks pos .RBrack

/-- From `src/parser/mod.rs` (`LuaParser::l_pr`). -/
def l_pr (toks : List Token) (pos : Nat) : Step EmptyToken :=
  kw toks pos .LParen

/-- From `src/parser/mod.rs` (`LuaParser::r_pr`). -/
def r_pr (toks : List Token) (pos : Nat) : Step EmptyToken :=
  kw toks pos .RParen

/-- From `src/parser/mod.rs` (`LuaParser::assign`). -/
def assign (toks : List Token) (pos : Nat) : Step EmptyToken :=
  kw toks pos .Assign

/-- The binary operator token match of `LuaParser::expr` (`sign`). -/
def sign (toks : List Token) (pos : Nat) : Step BinaryType :=
  tkn toks pos fun t => match t with
  | .Mult => some .Mult
  | .Div => some .Div
  | .FDiv => some .FDiv
  | .Mod => some .Mod
  | .Plus => some .Add
  | .EllipsisIn => some .Concat
  | .Gt => some .Gt
  | .Lt => some .Lt
  | .Ge => some .Ge
  | .Le => some .Le
  | .Eq => some .Eq
  | .TEq => some .TEq
  | .And => some .And
  | .Or => some .Or
  | .LShift => some .LShift
  | .RShift => some .RShift
  | .Ampersand => some .Amper
  | .Stick => some .Stick
  | .Tilde => some .Tilde
  | .Minus => some .Sub
  | .Caret => some .Pov
  | _ => none

/-- The unary operator token match of `LuaParser::atom` (`unary`). -/
def unary_sign (toks : List Token) (pos : Nat) : Step UnaryType :=
  tkn toks pos fun t => match t with
  | .Not => some .Not
  | .Hash => some .Hash
  | .Tilde => some .Tilde
  | .Minus => some .Minus
  | _ => none

/-- From `src/parser/mod.rs` (`LuaParser::names`): `id (comma id)*`. -/
def names (toks : List Token) (fuel : Nat) (pos : Nat) : Step (List Id) :=
  seq_p fuel (fun p => id toks p) (fun p => comma toks p) pos

/-- From `src/parser/mod.rs` (`LuaParser::id_list`). -/
def id_list (toks : List Token) (fuel : Nat) (pos : Nat) : Step (List Id) :=
  seq_p fuel (fun p => id toks p) (fun p => comma toks p) pos

/-- From `src/parser/mod.rs` (`LuaParser::params`): a name list with an
optional `, ...` tail, or a bare `...`. -/
def params (toks : List Token) (fuel : Nat) (pos : Nat) : Step FnParams :=
  let varargs := fun p =>
    ((comma toks p).then_f (fun q => kw toks q .EllipsisOut)).or_none
  let transform := fun (x : List Id × Option EmptyToken) =>
    match x.2 with
    | some _ => FnParams.WithVarArgs x.1
    | none => FnParams.Args x.1
  (((((names toks fuel pos).then_or_none_zip varargs).map transform).or_from
      pos).or
    (fun p => (kw toks p .EllipsisOut).map (fun _ => FnParams.VarArgs))).into_step

/-- From `src/parser/mod.rs` (`LuaParser::fn_params`): parenthesised
`params`, defaulting to the empty parameter list. -/
def fn_params (toks : List Token) (fuel : Nat) (pos : Nat) : Step FnParams :=
  wrap3_or (fun p => l_pr toks p) (fun p => params toks fuel p) (FnParams.Args [])
    (fun p => r_pr toks p) pos

/-- From `src/parser/mod.rs` (`LuaParser::attr_name_list`). -/
def attr_name_list (toks : List Token) (fuel : Nat) (pos : Nat) :
    Step (List AttrName) :=
  let attr := fun p =>
    let l := fun q => kw toks q .Lt
    let r := fun q => kw toks q .Gt
    let idP := fun q => id toks q
    ((id toks p).then_or_none_zip (fun q => (wrap3 l idP r q).or_none)).map
      (fun x => match x.2 with
        | some a => AttrName.AttrName x.1 a
        | none => AttrName.Name x.1)
  seq_p fuel attr (fun p => comma toks p) pos

/-- From `src/parser/mod.rs` (`LuaParser::fn_name`): dotted names with an
optional `:id` method tail. -/
def fn_name (toks : List Token) (fuel : Nat) (pos : Nat) : Step FnName :=
  let idP := fun p => id toks p
  let c := fun p => kw toks p .Dot
  let endP := fun p => (kw toks p .Colon).then_f idP
  ((seq_p fuel idP c pos).then_or_none_zip (fun p => (endP p).or_none)).map
    (fun x => FnName.mk x.1 x.2)

/-- The bundle of the mutually recursive grammar parsers of
`src/parser/mod.rs` at one fuel level; the bodies are in `grammar_step` and
the per-function wrappers below keep the source names. -/
structure GrammarFns where
  expr : Nat → Step Expression
  atom : Nat → Step Expression
  table_const : Nat → Step TableConst
  expr_list : Nat → Step (List Expression)
  var_list : Nat → Step (List Var)
  name_args : Nat → Step NameArgs
  var_suffix : Nat → Step VarSuffix
  var : Nat → Step Var
  var_or_expr : Nat → Step VarOrExpr
  fn_call : Nat → Step FnCall
  block : Nat → Step Block
  statement : Nat → Step Statement

/-- Out-of-fuel bundle: every parser fails at its position (never reached
when ample fuel is supplied). -/
def grammar_zero : GrammarFns where
  expr := fun pos => .Fail pos
  atom := fun pos => .Fail pos
  table_const := fun pos => .Fail pos
  expr_list := fun pos => .Fail pos
  var_list := fun pos => .Fail pos
  name_args := fun pos => .Fail pos
  var_suffix := fun pos => .Fail pos
  var := fun pos => .Fail pos
  var_or_expr := fun pos => .Fail pos
  fn_call := fun pos => .Fail pos
  block := fun pos => .Fail pos
  statement := fun pos => .Fail pos

/-- One step of the mutually recursive grammar of `src/parser/mod.rs`:
each field is the body of the corresponding `LuaParser` method, with the
mutually recursive calls taken from the previous fuel level `g` and the
repetition combinators unrolled `fuel` times. -/
def grammar_step (toks : List Token) (fuel : Nat) (g : GrammarFns) : GrammarFns where
  expr := fun pos =>
    ((g.atom pos).then_multi_zip fuel
        (fun p => (sign toks p).then_zip (fun q => g.atom q))).map
      (fun x => Expression.fold x.1 x.2)
  atom := fun pos =>
    let primitive := fun p =>
      ((tkn toks p (fun t => match t with
          | .True => some Expression.True
          | .False => some Expression.False
          | .Nil => some Expression.Nil
          | .EllipsisOut => some Expression.VarArgs
          | _ => none)).or_at p
        (fun q => (text toks q).map Expression.Text)).or_at p
        (fun q => (number toks q).map Expression.Number)
    let fn_def := fun p =>
      ((((kw toks p .Function).then_f (fun q => fn_params toks fuel q)).then_zip
          (fun q => g.block q)).then_skip (fun q => kw toks q .End)).map
        (fun x => Expression.FnDef x.1 x.2)
    let prefix_e := fun p =>
      ((g.var_or_expr p).then_multi_zip fuel (fun q => g.name_args q)).map
        (fun x => Expression.PrefixExpr (FnCall.mk x.1 x.2))
    let unary := fun p =>
      ((unary_sign toks p).then_zip (fun q => g.expr q)).map
        (fun x => Expression.Unary x.1 x.2)
    ((((((primitive pos).or_from pos).or fn_def).or prefix_e).or unary).or
      (fun p => (g.table_const p).map Expression.TableConstructor)).into_step
  table_const := fun pos =>
    let sep := fun p => (comma toks p).or_at p (fun q => semi toks q)
    let field := fun p =>
      let pair_expr_as_key := fun p1 =>
        (((((l_br toks p1).then_f (fun q => g.expr q)).then_skip
            (fun q => r_br toks q)).then_skip (fun q => assign toks q)).then_zip
            (fun q => g.expr q)).map
          (fun x => Field.Pair (FieldKey.Expr x.1) x.2)
      let pair_id_as_key := fun p1 =>
        (((id toks p1).then_skip (fun q => assign toks q)).then_zip
            (fun q => g.expr q)).map
          (fun x => Field.Pair (FieldKey.Id x.1) x.2)
      let value := fun p1 => (g.expr p1).map Field.Value
      ((((pair_expr_as_key p).or_from p).or pair_id_as_key).or value).into_step
    let fields := fun p => seq_trail fuel field sep p
    (wrap3_or (fun p => kw toks p .LBrace) fields [] (fun p => kw toks p .RBrace)
        pos).map
      (fun fs => TableConst.mk fs)
  expr_list := fun pos =>
    seq_p fuel (fun p => g.expr p) (fun p => comma toks p) pos
  var_list := fun pos =>
    seq_p fuel (fun p => g.var p) (fun p => comma toks p) pos
  name_args := fun pos =>
    let args := fun p =>
      let expr_args :=
        (((l_pr toks p).then_or_val (fun q => g.expr_list q) []).then_skip
          (fun q => r_pr toks q)).map Args.Expressions
      (((expr_args.or_from p).or
          (fun q => (g.table_const q).map Args.Constructor)).or
          (fun q => (text toks q).map Args.String)).into_step
    let name := (kw toks pos .Colon).then_f (fun p => id toks p)
    (name.or_none.then_zip args).map
      (fun x => match x.1 with
        | some v => NameArgs.NameArgs v x.2
        | none => NameArgs.Args x.2)
  var_suffix := fun pos =>
    let exprS := fun p =>
      (wrap3 (fun q => l_br toks q) (fun q => g.expr q)
          (fun q => r_br toks q) p).map Suffix.Expr
    let nameS := fun p =>
      ((kw toks p .Dot).then_f (fun q => id toks q)).map Suffix.Id
    ((zero_or_more fuel pos (fun p => g.name_args p)).then_zip
        (fun p => (((exprS p).or_from p).or nameS).into_step)).map
      (fun x => VarSuffix.mk x.1 x.2)
  var := fun pos =>
    let exprH := fun p =>
      ((wrap3 (fun q => l_pr toks q) (fun q => g.expr q)
            (fun q => r_pr toks q) p).then_zip
          (fun q => g.var_suffix q)).map
        (fun x => VarHead.Expr x.1 x.2)
    ((((id toks pos).map VarHead.Id).or_at pos exprH).then_zip
        (fun p => zero_or_more fuel p (fun q => g.var_suffix q))).map
      (fun x => Var.mk x.1 x.2)
  var_or_expr := fun pos =>
    let exprA := fun p =>
      (wrap3 (fun q => l_pr toks q) (fun q => g.expr q)
          (fun q => r_pr toks q) p).map VarOrExpr.Expr
    ((((g.var pos).map VarOrExpr.Var).or_from pos).or exprA).into_step
  fn_call := fun pos =>
    ((g.var_or_expr pos).then_zip
        (fun p => one_or_more fuel p (fun q => g.name_args q))).map
      (fun x => FnCall.mk x.1 x.2)
  block := fun pos =>
    let return_s := fun p =>
      (((kw toks p .Return).then_or_val (fun q => g.expr_list q)
          []).then_or_none_zip
        (fun q => (kw toks q .Semi).or_none)).take_left
    ((zero_or_more fuel pos (fun p => g.statement p)).then_or_none_zip
        (fun p => (return_s p).or_none)).map
      (fun x => match x.2 with
        | some r => Block.Return x.1 r
        | none => Block.Void x.1)
  statement := fun pos =>
    let end_t := fun p => kw toks p .End
    let do_t := fun p => kw toks p .Do
    let then_t := fun p => kw toks p .Then
    let local_t := fun p => kw toks p .Local
    let fn_t := fun p => kw toks p .Function
    let blockP := fun p => g.block p
    let exprP := fun p => g.expr p
    let idP := fun p => id toks p
    let assignP := fun p => assign toks p
    let empty := fun p =>
      tkn toks p (fun t => match t with | .Semi => some Statement.Empty | _ => none)
    let assignment := fun p =>
      (((g.var_list p).then_skip assignP).then_zip
          (fun q => g.expr_list q)).map
        (fun x => Statement.Assignment x.1 x.2)
    let fn_call_s := fun p => (g.fn_call p).map Statement.FnCall
    let label := fun p =>
      let del := fun q => kw toks q .DColon
      (wrap3 del idP del p).map Statement.Label
    let break_s := fun p =>
      tkn toks p (fun t => match t with | .Break => some Statement.Break | _ => none)
    let goto := fun p =>
      ((kw toks p .Goto).then_f idP).map Statement.Goto
    let do_s := fun p => (wrap3 do_t blockP end_t p).map Statement.Do
    let while_s := fun p =>
      (((kw toks p .While).then_f exprP).then_zip
          (fun q => wrap3 do_t blockP end_t q)).map
        (fun x => Statement.While (While.mk x.1 x.2))
    let repeat_s := fun p =>
      ((((kw toks p .Repeat).then_f blockP).then_skip
          (fun q => kw toks q .Until)).then_zip exprP).map
        (fun x => Statement.Repeat (Repeat.mk x.2 x.1))
    let if_s := fun p =>
      let if_main := fun q =>
        ((wrap3 (fun r => kw toks r .If) exprP then_t q).then_zip blockP).map
          (fun x => IfBranch.mk x.1 x.2)
      let else_if := fun q =>
        ((wrap3 (fun r => kw toks r .Elseif) exprP then_t q).then_zip blockP).map
          (fun x => IfBranch.mk x.1 x.2)
      let else_b := fun q => (kw toks q .Else).then_f blockP
      ((((if_main p).then_multi_zip fuel else_if).then_or_none_zip
          (fun q => (else_b q).or_none)).then_skip end_t).map
        (fun x => match x.2 with
          | some o => Statement.If (If.IfElse x.1.1 x.1.2 o)
          | none => Statement.If (If.If x.1.1 x.1.2))
    let for_s := fun p =>
      let for_t := fun q => kw toks q .For
      let in_t := fun q => kw toks q .In
      let plain := fun q =>
        ((((((((for_t q).then_f idP).then_skip assignP).then_zip exprP).then_skip
              (fun r => comma toks r)).then_zip exprP).then_or_none_zip
              (fun r => ((comma toks r).then_f exprP).or_none)).then_skip
            do_t).then_zip blockP |>.then_skip end_t |>.map
          (fun x =>
            Statement.For (For.Plain (PlainFor.mk x.1.1.1 x.1.1.2 x.1.2 x.2)))
      let col := fun q =>
        (((((for_t q).then_f (fun r => names toks fuel r)).then_skip in_t).then_zip
              (fun r => g.expr_list r)).then_skip do_t).then_zip blockP
          |>.then_skip end_t |>.map
          (fun x => Statement.For (For.ForCol (ExprFor.mk x.1.1 x.1.2 x.2)))
      (((plain p).or_from p).or col).into_step
    let function := fun p =>
      (((((fn_t p).then_f (fun q => fn_name toks fuel q)).then_zip
          (fun q => fn_params toks fuel q)).then_zip blockP).then_skip end_t).map
        (fun x => Statement.FnDef (FnDef.mk x.1.1 x.1.2 x.2))
    let local_function := fun p =>
      ((((((local_t p).then_f fn_t).then_f idP).then_zip
          (fun q => fn_params toks fuel q)).then_zip blockP).then_skip end_t).map
        (fun x => Statement.LocalFnDef (FnDef.mk (FnName.mk [x.1.1] none) x.1.2 x.2))
    let local_attrs := fun p =>
      (((local_t p).then_f (fun q => attr_name_list toks fuel q)).then_or_val_zip
          (fun q => (assignP q).then_f (fun r => g.expr_list r)) []).map
        (fun x => Statement.LocalAttrNames x.1 x.2)
    (((((((((((((((empty pos).or_from pos).or assignment).or fn_call_s).or
      label).or break_s).or goto).or do_s).or while_s).or repeat_s).or if_s).or
      for_s).or function).or local_function).or local_attrs).into_step

/-- The grammar bundle at a given fuel level. -/
def grammar (toks : List Token) : Nat → GrammarFns
  | 0 => grammar_zero
  | fuel + 1 => grammar_step toks fuel (grammar toks fuel)

/-- From `src/parser/mod.rs` (`LuaParser::expr`): `atom (sign atom)*`,
reshaped by the priority folder. -/
def expr (toks : List Token) (fuel : Nat) : Nat → Step Expression :=
  (grammar toks fuel).expr

/-- From `src/parser/mod.rs` (`LuaParser::atom`): primitives, function
definitions, prefix expressions, unary expressions and table constructors,
tried in that order from the same position. -/
def atom (toks : List Token) (fuel : Nat) : Nat → Step Expression :=
  (grammar toks fuel).atom

/-- From `src/parser/mod.rs` (`LuaParser::table_const`): braces around an
optional field list with `,`/`;` separators and an optional trailing
separator; a field is `[e] = e`, `id = e` or `e`, tried in that order. -/
def table_const (toks : List Token) (fuel : Nat) : Nat → Step TableConst :=
  (grammar toks fuel).table_const

/-- From `src/parser/mod.rs` (`LuaParser::expr_list`). -/
def expr_list (toks : List Token) (fuel : Nat) : Nat → Step (List Expression) :=
  (grammar toks fuel).expr_list

/-- From `src/parser/mod.rs` (`LuaParser::var_list`). -/
def var_list (toks : List Token) (fuel : Nat) : Nat → Step (List Var) :=
  (grammar toks fuel).var_list

/-- From `src/parser/mod.rs` (`LuaParser::name_args`): an optional `:id`
method name followed by call arguments (parenthesised expression list,
table constructor, or string). -/
def name_args (toks : List Token) (fuel : Nat) : Nat → Step NameArgs :=
  (grammar toks fuel).name_args

/-- From `src/parser/mod.rs` (`LuaParser::var_suffix`): call-like elements
then one terminal suffix (`[e]` or `.id`). -/
def var_suffix (toks : List Token) (fuel : Nat) : Nat → Step VarSuffix :=
  (grammar toks fuel).var_suffix

/-- From `src/parser/mod.rs` (`LuaParser::var`): an identifier head or a
parenthesised expression with one suffix, then any number of suffixes. -/
def var (toks : List Token) (fuel : Nat) : Nat → Step Var :=
  (grammar toks fuel).var

/-- From `src/parser/mod.rs` (`LuaParser::var_or_expr`): a variable, or a
parenthesised expression, tried in that order from the same position. -/
def var_or_expr (toks : List Token) (fuel : Nat) : Nat → Step VarOrExpr :=
  (grammar toks fuel).var_or_expr

/-- From `src/parser/mod.rs` (`LuaParser::fn_call`): a head followed by one
or more call argument groups. -/
def fn_call (toks : List Token) (fuel : Nat) : Nat → Step FnCall :=
  (grammar toks fuel).fn_call

/-- From `src/parser/mod.rs` (`LuaParser::block`): `statement*` then an
optional return statement `return expression_list? ;?`. -/
def block (toks : List Token) (fuel : Nat) : Nat → Step Block :=
  (grammar toks fuel).block

/-- From `src/parser/mod.rs` (`LuaParser::statement`): the fourteen
statement alternatives, tried in source order from the same position. -/
def statement (toks : List Token) (fuel : Nat) : Nat → Step Statement :=
  (grammar toks fuel).statement

/-- Ample fuel for a token stream: the grammar consumes at least one token
for every constant number of nested calls, so this bound never runs out on
the inputs evaluated below. -/
def ample_fuel (toks : List Token) : Nat :=
  20 * (toks.length + 2)

/-- From `src/parser/mod.rs` (`LuaParser::parse`): construct the token
stream (propagating a lexer error), run `block` from position 0, validate
EOF and convert to a `Result`. -/
def parse (src : String) : Except ParseError Block :=
  match lexit_new src with
  | .error e => .error e
  | .ok toks =>
    (validate_eof toks.length (block toks (ample_fuel toks) 0)).into_result

/-- The `Display` of `Number` from `src/parser/ast.rs`: note that the hex
and binary variants print their value in decimal after a `0x` / `b`
prefix. A float prints its stored slice (the `f64` formatting is not
modelled further). -/
def displayNumber (n : Number) : String :=
  match n with
  | .Int v => toString v
  | .Float s => s
  | .Hex v => "0x" ++ toString v
  | .Binary v => "b" ++ toString v

/-- The `Display` of `Id` from `src/parser/ast.rs`. -/
def displayId (i : Id) : String :=
  i.v

/-- The `Display` of `Text` from `src/parser/ast.rs`: the body wrapped in
double quotes. -/
def displayText (t : Text) : String :=
  "\"" ++ t.text ++ "\""

/-- The `Display` of `UnaryType` from `src/parser/expression.rs`: note that
`Not` is printed as `!`, which is not Lua surface syntax. -/
def displayUnaryType (u : UnaryType) : String :=
  match u with
  | .Not => "!"
  | .Hash => "#"
  | .Minus => "-"
  | .Tilde => "~"

/-- The `Display` of `BinaryType` from `src/parser/expression.rs`. -/
def displayBinaryType (b : BinaryType) : String :=
  match b with
  | .Mult => "*"
  | .Div => "/"
  | .FDiv => "//"
  | .Mod => "%"
  | .Add => "+"
  | .Sub => "-"
  | .Pov => "^"
  | .Concat => ".."
  | .Gt => ">"
  | .Ge => ">="
  | .Le => "<="
  | .Lt => "<"
  | .Eq => "=="
  | .TEq => "~="
  | .And => "and"
  | .Amper => "&"
  | .Stick => "|"
  | .Tilde => "~"
  | .LShift => "<<"
  | .RShift => ">>"
  | .Or => "or"

/-- The `Display` of `FnParams` from `src/parser/ast.rs`: note that the
plain `Args` variant also prints a trailing `,...`. -/
def displayFnParams (p : FnParams) : String :=
  match p with
  | .Args args => "(" ++ String.intercalate "," (args.map displayId) ++ ",...)"
  | .VarArgs => "(...)"
  | .WithVarArgs args => "(" ++ String.intercalate "," (args.map displayId) ++ ",...)"

/-- The `Display` of `FnName` from `src/parser/ast.rs`. -/
def displayFnName (n : FnName) : String :=
  match n.last with
  | none => String.intercalate "." (n.names.map displayId)
  | some l => String.intercalate "." (n.names.map displayId) ++ ":" ++ displayId l

/-- The `Display` of `AttrName` from `src/parser/ast.rs`. -/
def displayAttrName (a : AttrName) : String :=
  match a with
  | .Name n => displayId n
  | .AttrName n attr => displayId n ++ "<" ++ displayId attr ++ ">"

/-- Condition field accessor of `IfBranch`. -/
def IfBranch.cond : IfBranch → Expression
  | .mk c _ => c

/-- Body field accessor of `IfBranch`. -/
def IfBranch.body : IfBranch → Block
  | .mk _ b => b

mutual

/-- The `Display` of `Expression` from `src/parser/ast.rs`. The structural
recursion through the nested lists is modelled with fuel, always supplied
amply. -/
def displayExpression : Nat → Expression → String
  | 0, _ => ""
  | fuel + 1, e =>
    match e with
    | .Nil => "nil"
    | .False => "false"
    | .True => "true"
    | .Number n => displayNumber n
    | .Text t => displayText t
    | .VarArgs => "..."
    | .FnDef params body =>
      "function " ++ displayFnParams params ++ "\n" ++ displayBlock fuel body ++
        "\n" ++ "end"
    | .PrefixExpr c => displayFnCall fuel c
    | .TableConstructor t => displayTableConst fuel t
    | .Unary op e2 => displayUnaryType op ++ displayExpression fuel e2
    | .Binary l op r =>
      "(" ++ displayExpression fuel l ++ " " ++ displayBinaryType op ++ " " ++
        displayExpression fuel r ++ ")"

/-- The `Display` of `Field` from `src/parser/ast.rs`. -/
def displayField : Nat → Field → String
  | 0, _ => ""
  | fuel + 1, f =>
    match f with
    | .Pair (.Id i) e => displayId i ++ " = " ++ displayExpression fuel e
    | .Pair (.Expr k) e =>
      "[" ++ displayExpression fuel k ++ "] = " ++ displayExpression fuel e
    | .Value e => displayExpression fuel e

/-- The `Display` of `TableConst` from `src/parser/ast.rs`. -/
def displayTableConst : Nat → TableConst → String
  | 0, _ => ""
  | fuel + 1, t =>
    match t with
    | .mk fields =>
      "\x7b" ++ String.intercalate "," (fields.map (displayField fuel)) ++ "\x7d"

/-- The `match_args` closure of the `NameArgs` `Display` from
`src/parser/ast.rs`: arguments printed after a prefix (note that a string
argument prints its raw text, unquoted). -/
def displayArgsWith : Nat → String → Args → String
  | 0, _, _ => ""
  | fuel + 1, pre, a =>
    match a with
    | .Expressions es =>
      pre ++ " (" ++ String.intercalate "," (es.map (displayExpression fuel)) ++ ")"
    | .Constructor c => pre ++ " " ++ displayTableConst fuel c
    | .String t => pre ++ " " ++ t.text

/-- The `Display` of `NameArgs` from `src/parser/ast.rs`. -/
def displayNameArgs : Nat → NameArgs → String
  | 0, _ => ""
  | fuel + 1, na =>
    match na with
    | .Args a => displayArgsWith fuel "" a
    | .NameArgs n a => displayArgsWith fuel (":" ++ displayId n) a

/-- The `Display` of `VarSuffix` from `src/parser/ast.rs`. -/
def displayVarSuffix : Nat → VarSuffix → String
  | 0, _ => ""
  | fuel + 1, vs =>
    match vs with
    | .mk var suffix =>
      String.intercalate " " (var.map (displayNameArgs fuel)) ++
        (match suffix with
         | .Expr e => "[" ++ displayExpression fuel e ++ "]"
         | .Id i => "." ++ displayId i)

/-- The `Display` of `Var` from `src/parser/ast.rs`. -/
def displayVar : Nat → Var → String
  | 0, _ => ""
  | fuel + 1, v =>
    match v with
    | .mk head tail =>
      (match head with
       | .Expr e vs => "(" ++ displayExpression fuel e ++ ")" ++ displayVarSuffix fuel vs
       | .Id i => displayId i) ++
        String.intercalate " " (tail.map (displayVarSuffix fuel))

/-- The `Display` of `VarOrExpr` from `src/parser/ast.rs`. -/
def displayVarOrExpr : Nat → VarOrExpr → String
  | 0, _ => ""
  | fuel + 1, v =>
    match v with
    | .Expr e => "(" ++ displayExpression fuel e ++ ")"
    | .Var w => displayVar fuel w

/-- The `Display` of `FnCall` from `src/parser/ast.rs`. -/
def displayFnCall : Nat → FnCall → String
  | 0, _ => ""
  | fuel + 1, c =>
    match c with
    | .mk head args =>
      displayVarOrExpr fuel head ++ String.join (args.map (displayNameArgs fuel))

/-- The `Display` of `Block` from `src/parser/ast.rs`: statements each on a
line, then either a bare `;` or the `return` clause. -/
def displayBlock : Nat → Block → String
  | 0, _ => ""
  | fuel + 1, b =>
    match b with
    | .Void sts =>
      String.join (sts.map (fun s => displayStatement fuel s ++ "\n")) ++ ";"
    | .Return sts es =>
      String.join (sts.map (fun s => displayStatement fuel s ++ "\n")) ++
        "return " ++ String.intercalate "," (es.map (displayExpression fuel))

/-- The `Display` of `While` from `src/parser/ast.rs`. -/
def displayWhile : Nat → While → String
  | 0, _ => ""
  | fuel + 1, w =>
    match w with
    | .mk cond body =>
      "while " ++ displayExpression fuel cond ++ " do\n" ++ displayBlock fuel body ++
        "\n" ++ "end"

/-- The `Display` of `Repeat` from `src/parser/ast.rs`. -/
def displayRepeat : Nat → Repeat → String
  | 0, _ => ""
  | fuel + 1, r =>
    match r with
    | .mk until_e body =>
      "repeat " ++ displayBlock fuel body ++ " do\n" ++ "until " ++
        displayExpression fuel until_e

/-- The `Display` of `PlainFor` from `src/parser/ast.rs`. -/
def displayPlainFor : Nat → PlainFor → String
  | 0, _ => ""
  | fuel + 1, p =>
    match p with
    | .mk init border step body =>
      "for " ++ displayId init.1 ++ " = " ++ displayExpression fuel init.2 ++ ", " ++
        displayExpression fuel border ++ ", " ++
        (match step with
         | some s => displayExpression fuel s
         | none => "") ++ " do\n" ++ displayBlock fuel body ++ "\n" ++ "end"

/-- The `Display` of `ExprFor` from `src/parser/ast.rs` (note the double
space before `do`). -/
def displayExprFor : Nat → ExprFor → String
  | 0, _ => ""
  | fuel + 1, p =>
    match p with
    | .mk ns es body =>
      "for " ++ String.intercalate "," (ns.map displayId) ++ " in " ++
        String.intercalate "," (es.map (displayExpression fuel)) ++ "  do\n" ++
        displayBlock fuel body ++ "\n" ++ "end"

/-- The `Display` of `If` from `src/parser/ast.rs`. -/
def displayIf : Nat → If → String
  | 0, _ => ""
  | fuel + 1, i =>
    match i with
    | .If main elseifs =>
      "if " ++ displayExpression fuel main.cond ++ " then \n" ++
        displayBlock fuel main.body ++ " \n" ++
        String.join (elseifs.map (fun o =>
          "elseif " ++ displayExpression fuel o.cond ++ " then \n" ++
            displayBlock fuel o.body ++ " \n")) ++ "end"
    | .IfElse main elseifs else_b =>
      "if " ++ displayExpression fuel main.cond ++ " then \n" ++
        displayBlock fuel main.body ++ " \n" ++
        String.join (elseifs.map (fun o =>
          "elseif " ++ displayExpression fuel o.cond ++ " then \n" ++
            displayBlock fuel o.body ++ " \n")) ++
        "else \n" ++ displayBlock fuel else_b ++ " \n" ++ "end"

/-- The `Display` of `For` from `src/parser/ast.rs`. -/
def displayFor : Nat → For → String
  | 0, _ => ""
  | fuel + 1, f =>
    match f with
    | .Plain p => displayPlainFor fuel p
    | .ForCol e => displayExprFor fuel e

/-- The `Display` of `FnDef` from `src/parser/ast.rs`. -/
def displayFnDef : Nat → FnDef → String
  | 0, _ => ""
  | fuel + 1, d =>
    match d with
    | .mk name ps body =>
      "function " ++ displayFnName name ++ displayFnParams ps ++ "\n" ++
        displayBlock fuel body ++ "\n" ++ "end"

/-- The `Display` of `Statement` from `src/parser/ast.rs`. -/
def displayStatement : Nat → Statement → String
  | 0, _ => ""
  | fuel + 1, s =>
    match s with
    | .Empty => ";"
    | .Assignment vs es =>
      String.intercalate "," (vs.map (displayVar fuel)) ++ " = " ++
        String.intercalate "," (es.map (displayExpression fuel)) ++ " "
    | .FnCall c => displayFnCall fuel c
    | .Label i => "::" ++ displayId i ++ "::"
    | .Break => "break"
    | .Goto i => "goto " ++ displayId i
    | .Do b => "do \n" ++ displayBlock fuel b ++ "\n" ++ "end"
    | .While w => displayWhile fuel w
    | .Repeat r => displayRepeat fuel r
    | .If i => displayIf fuel i
    | .For f => displayFor fuel f
    | .FnDef d => displayFnDef fuel d
    | .LocalFnDef d => "local " ++ displayFnDef fuel d
    | .LocalAttrNames ns es =>
      "local " ++ String.intercalate "," (ns.map displayAttrName) ++
        (if es.isEmpty then ""
         else "= " ++ String.intercalate "," (es.map (displayExpression fuel)))

end

/-- The pretty-printed rendering of a block (`Display for Block`), with
ample fuel for the fuelled recursion. -/
def print_block (b : Block) : String :=
  displayBlock 1000 b

/-- Whether a lexed item is the error sentinel. -/
def LexedItem.is_err : LexedItem → Bool
  | .err _ _ _ => true
  | .tok _ => false

/-- The token carried by a lexed item, when it is one. -/
def LexedItem.token? : LexedItem → Option Token
  | .tok t => some t
  | .err _ _ _ => none

/-- A successful run of `p` along a list of `(value, next position)` steps
starting at the given position: each step is a `Success` of `p` from the
previous position. -/
def Chain {T : Type} (p : Nat → Step T) : Nat → List (T × Nat) → Prop
  | _, [] => True
  | pos, s :: rest => p pos = .Success s.1 s.2 ∧ Chain p s.2 rest

/-- The position after the last step of a chain (the starting position for
an empty chain). -/
def chain_last {T : Type} (pos : Nat) : List (T × Nat) → Nat
  | [] => pos
  | s :: rest => chain_last s.2 rest

/-- The position invariant of a step started at `start` on a stream of
length `len`: a `Success` lands between the start and the stream length. -/
def SuccessBounded {T : Type} (start len : Nat) (s : Step T) : Prop :=
  ∀ v n, s = .Success v n → start ≤ n ∧ n ≤ len

/-- The position invariant of a parser on a stream of length `len`: from
any in-range starting position, a `Success` lands between the start and the
stream length. -/
def ParserBounded {T : Type} (len : Nat) (p : Nat → Step T) : Prop :=
  ∀ pos, pos ≤ len → SuccessBounded pos len (p pos)

/-- The strengthened position invariant of a step started at `start` on a
stream of length `len`: a `Success` lands between the start and the stream
length, and a `Fail` also records a position in that range (needed because
`or_none` turns a `Fail` into a `Success` at the recorded position). -/
def StepBounded {T : Type} (start len : Nat) (s : Step T) : Prop :=
  (∀ v n, s = .Success v n → start ≤ n ∧ n ≤ len) ∧
  (∀ q, s = .Fail q → start ≤ q ∧ q ≤ len)

/-- The strengthened position invariant of a parser on a stream of length
`len`, from any in-range starting position. -/
def PBounded {T : Type} (len : Nat) (p : Nat → Step T) : Prop :=
  ∀ pos, pos ≤ len → StepBounded pos len (p pos)

/-- The position invariant of an `or_from` chain state. -/
def AltBounded {T : Type} (start len : Nat) (a : Alt T) : Prop :=
  a.init = start ∧ StepBounded start len a.current

/-- The strengthened position invariant for every parser of a grammar
bundle. -/
def GrammarBounded (len : Nat) (g : GrammarFns) : Prop :=
  PBounded len g.expr ∧ PBounded len g.atom ∧ PBounded len g.table_const ∧
  PBounded len g.expr_list ∧ PBounded len g.var_list ∧ PBounded len g.name_args ∧
  PBounded len g.var_suffix ∧ PBounded len g.var ∧ PBounded len g.var_or_expr ∧
  PBounded len g.fn_call ∧ PBounded len g.block ∧ PBounded len g.statement

/-- The token produced by the lexer for each unary operator (the match of
`LuaParser::atom`, read back). -/
def unary_token (u : UnaryType) : Token :=
  match u with
  | .Not => .Not
  | .Hash => .Hash
  | .Minus => .Minus
  | .Tilde => .Tilde

/-- The token produced by the lexer for each binary operator (the `sign`
match of `LuaParser::expr`, read back). -/
def binary_token (b : BinaryType) : Token :=
  match b with
  | .Mult => .Mult
  | .Div => .Div
  | .FDiv => .FDiv
  | .Mod => .Mod
  | .Add => .Plus
  | .Concat => .EllipsisIn
  | .Gt => .Gt
  | .Lt => .Lt
  | .Ge => .Ge
  | .Le => .Le
  | .Eq => .Eq
  | .TEq => .TEq
  | .And => .And
  | .Or => .Or
  | .LShift => .LShift
  | .RShift => .RShift
  | .Amper => .Ampersand
  | .Stick => .Stick
  | .Tilde => .Tilde
  | .Sub => .Minus
  | .Pov => .Caret

/-- The expression produced by `atom` for a bare identifier: a prefix
expression whose head is the variable and whose argument list is empty. -/
def id_atom (s : String) : Expression :=
  .PrefixExpr (.mk (.Var (.mk (.Id ⟨s⟩) [])) [])

/-- Concrete source text: right-associated exponentiation. -/
def src_pow : String := "return 2 ^ 3 ^ 2"

/-- Concrete source text: a unary `not` in a return expression. -/
def src_not_true : String := "return not true"

/-- The pretty-printed form of `parse src_not_true`, with the non-Lua `!`
rendering of `not`. -/
def printed_not_true : String := "return !true"

/-- Concrete source text: a return statement with no expression list. -/
def src_return_sp : String := "return "

/-- Concrete source text: trailing junk after a return statement. -/
def src_return_junk : String := "return 1 junk"

/-- Concrete source text: an unterminated long-bracket string. -/
def src_unterminated : String := "[[abc"

/-- The offending slice of the unterminated long-bracket string. -/
def slice_unterminated : String := "[["

/-- The offending slice of the failed re-parse of `printed_not_true`. -/
def bang_str : String := "!"

/-- Concrete identifier names used in token-level statements. -/
def a_str : String := "a"

/-- Concrete identifier names used in token-level statements. -/
def c_str : String := "c"

/-- A parser that fails recording a furthest position different from its
input position (a probe for the backtracking discipline of `or`). -/
def probe_fail : Nat → Step Nat :=
  fun _ => .Fail 7

/-- A parser that succeeds echoing the position it was started at (a probe
for the backtracking discipline of `or`). -/
def probe_echo : Nat → Step Nat :=
  fun q => .Success q q

/-- C1: the claim states that for operators with equal left and right
binding power (such as `Sub`) the folder returns the left-grouped tree
`Binary(Binary(a, Sub, b), Sub, c)`. The code's loop condition
`l_prior >= min_priority` together with the recursive call at
`min_priority = r_prior` makes the recursive call consume an equal-priority
head, so `fold(1, [(Sub, 2), (Sub, 3)])` evaluates to the right-grouped
tree `Binary(1, Sub, Binary(2, Sub, 3))`, which is not the left-grouped
tree the claim (and Lua 5.4 left associativity) requires. -/
theorem C1_fold_equal_priority_groups_right :
    fold_with_priority (.Number (.Int 1))
        [(.Sub, .Number (.Int 2)), (.Sub, .Number (.Int 3))] =
      Expression.Binary (.Number (.Int 1)) .Sub
        (Expression.Binary (.Number (.Int 2)) .Sub (.Number (.Int 3))) ∧
    Expression.Binary (.Number (.Int 1)) .Sub
        (Expression.Binary (.Number (.Int 2)) .Sub (.Number (.Int 3))) ≠
      Expression.Binary
        (Expression.Binary (.Number (.Int 1)) .Sub (.Number (.Int 2))) .Sub
        (.Number (.Int 3)) := by
  refine ⟨rfl, ?_⟩
  intro h
  injection h with h1 h2 h3
  injection h1

/-- C2: the claim states that re-parsing the pretty-printed rendering of a
parsed AST succeeds and yields the same AST (up to whitespace, quote style
and numeric formatting). The `Display` of `UnaryType` renders `Not` as `!`,
which is not Lua surface syntax: `parse "return not true"` succeeds, its
rendering is `return !true`, and re-parsing that rendering fails with a
lexer `BadToken` error, so the round-trip contract does not hold. -/
theorem C2_roundtrip_fails_on_not :
    parse src_not_true = .ok (Block.Return [] [Expression.Unary .Not .True]) ∧
    print_block (Block.Return [] [Expression.Unary .Not .True]) = printed_not_true ∧
    parse printed_not_true = .error (.BadToken bang_str 7 8) :=
  ⟨rfl, rfl, rfl⟩

/-- C4: `or` never resumes at the furthest position recorded by a `Fail`:
when the left operand run from `p` fails (whatever position the `Fail`
carries), the alternative runs from exactly `p`, both for the plain `or`
and for an `or` in an `or_from p` chain; `Success` and `Error` pass
through unchanged without running the alternative. -/
theorem C4_or_restarts_at_original (T : Type) (a b : Nat → Step T) (p : Nat) :
    (∀ q, a p = .Fail q → (a p).or_at p b = b p) ∧
    (∀ v n, a p = .Success v n → (a p).or_at p b = .Success v n) ∧
    (∀ e, a p = .Error e → (a p).or_at p b = .Error e) ∧
    (∀ q, a p = .Fail q → (((a p).or_from p).or b).into_step = b p) ∧
    (∀ v n, a p = .Success v n → (((a p).or_from p).or b).into_step = .Success v n) ∧
    (∀ e, a p = .Error e → (((a p).or_from p).or b).into_step = .Error e) := by
  refine ⟨?_, ?_, ?_, ?_, ?_, ?_⟩
  · intro q h; rw [h]; rfl
  · intro v n h; rw [h]; rfl
  · intro e h; rw [h]; rfl
  · intro q h; rw [h]; rfl
  · intro v n h; rw [h]; rfl
  · intro e h; rw [h]; rfl

/-- C4 witness: a left operand that fails recording furthest position 7 is
retried at its input position 0, not at 7. -/
theorem C4_or_restarts_at_original_witness :
    (probe_fail 0).or_at 0 probe_echo = probe_echo 0 :=
  (C4_or_restarts_at_original Nat probe_fail probe_echo 0).1 7 rfl

/-- C5: `parse "return 2 ^ 3 ^ 2"` succeeds and the return expression is
the right-associated tree `Binary(Int 2, Pov, Binary(Int 3, Pov, Int 2))`. -/
theorem C5_pow_right_assoc :
    parse src_pow =
      .ok (Block.Return []
        [.Binary (.Number (.Int 2)) .Pov
          (.Binary (.Number (.Int 3)) .Pov (.Number (.Int 2)))]) :=
  rfl

/-- C6: `validate_eof` converts `Success(v, n)` with `n` different from the
token-stream length into `Error(UnreachedEOF(n))` and passes every other
step through unchanged; in particular `parse "return 1 junk"` ends in
`UnreachedEOF` at position 2. -/
theorem C6_validate_eof_spec (T : Type) (len : Nat) (s : Step T) :
    (∀ v n, s = .Success v n → n ≠ len →
      validate_eof len s = .Error (.UnreachedEOF n)) ∧
    (∀ v n, s = .Success v n → n = len → validate_eof len s = s) ∧
    (∀ q, s = .Fail q → validate_eof len s = s) ∧
    (∀ e, s = .Error e → validate_eof len s = s) ∧
    parse src_return_junk = .error (.UnreachedEOF 2) := by
  refine ⟨?_, ?_, ?_, ?_, rfl⟩
  · intro v n h hne; subst h; simp [validate_eof, Ne.symm hne]
  · intro v n h he; subst h; simp [validate_eof, he]
  · intro q h; subst h; rfl
  · intro e h; subst h; rfl

/-- C6 witness: a success at position 0 on a one-token stream is converted
to `UnreachedEOF 0`. -/
theorem C6_validate_eof_spec_witness :
    validate_eof 1 (Step.Success (0 : Nat) 0) = .Error (.UnreachedEOF 0) :=
  (C6_validate_eof_spec Nat 1 (Step.Success (0 : Nat) 0)).1 0 0 rfl (by decide)

/-- C7: `parse "return "` (a return statement with no expression list, at
end of input) succeeds with `Block::Return([], [])`: the missing expression
list is replaced by the empty default. -/
theorem C7_return_empty_default :
    parse src_return_sp = .ok (Block.Return [] []) :=
  rfl

/-- C9 counterexample: the claim quantifies over every starting position,
but from a position beyond the token-stream length the `block` parser
succeeds without consuming (`zero_or_more` and the optional return default
turn the EOF into an empty block), returning `Success(_, 1)` on an empty
stream of length 0, so `next ≤ stream length` fails there. -/
theorem C9_beyond_eof_counterexample :
    block ([] : List Token) 5 1 = .Success (Block.Void []) 1 ∧
    ¬(1 ≤ ([] : List Token).length) :=
  ⟨rfl, by decide⟩

/-- C10: for every unary operator `u` and every binary operator `b`, the
expression parser on the token sequence `u a b c` yields
`Unary(u, Binary(a, b, c))`: the unary atom consumes the entire following
binary expression, so no binary operator binds tighter than a unary one. -/
theorem C10_unary_consumes_following_binary (u : UnaryType) (b : BinaryType) :
    expr [unary_token u, Token.Id a_str, binary_token b, Token.Id c_str] 30 0 =
      .Success (Expression.Unary u
        (Expression.Binary (id_atom a_str) b (id_atom c_str))) 4 := by
  cases u <;> cases b <;> rfl

/-- The repetition loop follows a chain of successes of `g` and stops at
the first Fail or EOF, accumulating every value, provided the fuel covers
the chain length. -/
theorem then_multi_loop_chain {T : Type} (p : Nat → Step T)
    (steps : List (T × Nat)) :
    ∀ (pos q fuel : Nat), Chain p pos steps →
      (p (chain_last pos steps) = .Fail q ∨
        p (chain_last pos steps) = .Error (.ReachedEOF q)) →
      steps.length ≤ fuel →
      then_multi_loop p fuel pos =
        .Success (steps.map Prod.fst) (chain_last pos steps) := by
  induction steps with
  | nil =>
    intro pos q fuel _ hstop _
    cases fuel with
    | zero => rfl
    | succ f =>
      simp only [chain_last] at hstop
      rcases hstop with h | h
      · simp [then_multi_loop, h, chain_last]
      · simp [then_multi_loop, h, chain_last]
  | cons s rest ih =>
    intro pos q fuel hc hstop hf
    obtain ⟨h1, h2⟩ := hc
    cases fuel with
    | zero => simp at hf
    | succ f =>
      have hrest := ih s.2 q f h2 hstop (Nat.le_of_succ_le_succ hf)
      simp only [then_multi_loop, h1, hrest, Step.map, List.map, chain_last]

/-- C3: `zero_or_more` never returns Fail; when the parser fails at the
starting position or the stream is at EOF it returns `Success([], pos)`;
and when the parser succeeds along a chain of one or more steps and then
fails or reaches EOF, it returns the accumulated values of the whole chain
at the position after the last success (given the ample fuel of the
model's bounded unrolling). -/
theorem C3_zero_or_more_spec {T : Type} (fuel pos : Nat) (p : Nat → Step T) :
    (∀ q, zero_or_more fuel pos p ≠ .Fail q) ∧
    (∀ q, p pos = .Fail q ∨ p pos = .Error (.ReachedEOF q) →
      zero_or_more fuel pos p = .Success [] pos) ∧
    (∀ (steps : List (T × Nat)) q, steps ≠ [] → Chain p pos steps →
      (p (chain_last pos steps) = .Fail q ∨
        p (chain_last pos steps) = .Error (.ReachedEOF q)) →
      steps.length ≤ fuel + 1 →
      zero_or_more fuel pos p =
        .Success (steps.map Prod.fst) (chain_last pos steps)) := by
  refine ⟨?_, ?_, ?_⟩
  · intro q
    unfold zero_or_more
    cases h : ((p pos).then_multi_zip fuel p).merge with
    | Success v n => simp
    | Fail r => simp
    | Error e => cases e <;> simp
  · intro q hq
    rcases hq with h | h <;>
      simp [zero_or_more, h, Step.then_multi_zip, Step.merge, Step.map]
  · intro steps q hne hc hstop hf
    cases steps with
    | nil => exact absurd rfl hne
    | cons s rest =>
      obtain ⟨h1, h2⟩ := hc
      have hloop := then_multi_loop_chain p rest s.2 q fuel h2 hstop
        (Nat.le_of_succ_le_succ hf)
      simp only [zero_or_more, Step.then_multi_zip, h1, hloop, Step.merge,
        Step.map, List.map, chain_last]

/-- C3 witness: two semicolon tokens are consumed as a chain of two
successes ending at EOF, yielding both accumulated values at position 2. -/
theorem C3_zero_or_more_spec_witness :
    zero_or_more 5 0 (fun p => semi [Token.Semi, Token.Semi] p) =
      .Success [EmptyToken.mk, EmptyToken.mk] 2 :=
  (C3_zero_or_more_spec 5 0 (fun p => semi [Token.Semi, Token.Semi] p)).2.2
    [(EmptyToken.mk, 1), (EmptyToken.mk, 2)] 2 (by simp)
    ⟨rfl, rfl, trivial⟩ (Or.inr rfl) (by simp)

/-- The collection loop of `LexIt::new` succeeds exactly when the item
stream holds no error item, and then returns all tokens in order. -/
theorem lexit_new_items_ok (items : List LexedItem) :
    ∀ l, lexit_new_items items = .ok l →
      (∀ it ∈ items, it.is_err = false) ∧
      l = items.filterMap LexedItem.token? := by
  induction items with
  | nil =>
    intro l h
    simp only [lexit_new_items] at h
    cases h
    simp [List.filterMap]
  | cons it rest ih =>
    intro l h
    cases it with
    | tok t =>
      simp only [lexit_new_items] at h
      cases hr : lexit_new_items rest with
      | ok l2 =>
        rw [hr] at h
        simp only [Except.map] at h
        cases h
        obtain ⟨h1, h2⟩ := ih l2 hr
        constructor
        · intro x hx
          rcases List.mem_cons.mp hx with h | h
          · subst h; rfl
          · exact h1 x h
        · simp [List.filterMap_cons, LexedItem.token?, h2]
      | error e =>
        rw [hr] at h
        simp [Except.map] at h
    | err s a b =>
      simp [lexit_new_items] at h

/-- The collection loop of `LexIt::new` aborts at the first error item,
reporting its slice and byte range as `BadToken`. -/
theorem lexit_new_items_first_err (pre : List LexedItem) :
    ∀ s a b post, (∀ it ∈ pre, it.is_err = false) →
      lexit_new_items (pre ++ .err s a b :: post) = .error (.BadToken s a b) := by
  induction pre with
  | nil => intro s a b post _; rfl
  | cons it rest ih =>
    intro s a b post hpre
    cases it with
    | tok t =>
      simp only [List.cons_append, lexit_new_items, List.append_eq]
      rw [ih s a b post (fun x hx => hpre x (List.mem_cons_of_mem _ hx))]
      rfl
    | err s2 a2 b2 =>
      have := hpre _ (List.mem_cons_self _ _)
      simp [LexedItem.is_err] at this

/-- C8: token-stream construction fails with `BadToken(slice, range)` of
the first error item the lexer produces, and otherwise returns exactly the
non-skip tokens with no error item among them; in particular the
unterminated long string `[[abc` yields `BadToken("[[", 0..2)`. -/
theorem C8_token_stream_construction (src : String) :
    (∀ l, lexit_new src = .ok l →
      (∀ it ∈ lex_items src, it.is_err = false) ∧
      l = (lex_items src).filterMap LexedItem.token?) ∧
    (∀ pre s a b post, lex_items src = pre ++ .err s a b :: post →
      (∀ it ∈ pre, it.is_err = false) →
      lexit_new src = .error (.BadToken s a b)) ∧
    lexit_new src_unterminated = .error (.BadToken slice_unterminated 0 2) := by
  refine ⟨?_, ?_, rfl⟩
  · intro l h
    exact lexit_new_items_ok _ l h
  · intro pre s a b post heq hpre
    unfold lexit_new
    rw [heq]
    exact lexit_new_items_first_err pre s a b post hpre

/-- C8 witness: the item stream of `[[abc` is the single error item over
the opening `[[`, and construction reports it as `BadToken`. -/
theorem C8_token_stream_construction_witness :
    lexit_new src_unterminated = .error (.BadToken slice_unterminated 0 2) :=
  (C8_token_stream_construction src_unterminated).2.1 [] slice_unterminated 0 2 []
    rfl (by simp)

/-- A fail at the starting position is bounded. -/
theorem stb_fail {T : Type} {start len : Nat} (h : start ≤ len) :
    StepBounded start len (Step.Fail start : Step T) := by
  constructor
  · intro v n hh; simp at hh
  · intro q hh; injection hh with h1; subst h1; exact ⟨Nat.le_refl _, h⟩

/-- Errors are vacuously bounded. -/
theorem stb_error {T : Type} {start len : Nat} {e : ParseError} :
    StepBounded start len (Step.Error e : Step T) := by
  constructor
  · intro v n hh; simp at hh
  · intro q hh; simp at hh

/-- An explicit in-range success is bounded. -/
theorem stb_success {T : Type} {start len n : Nat} {v : T}
    (h1 : start ≤ n) (h2 : n ≤ len) : StepBounded start len (.Success v n) := by
  constructor
  · intro w m hh; injection hh with hh1 hh2; subst hh2; exact ⟨h1, h2⟩
  · intro q hh; simp at hh

/-- A single-token match is bounded on its stream. -/
theorem pb_tkn {T : Type} (toks : List Token) (f : Token → Option T) :
    PBounded toks.length (fun pos => tkn toks pos f) := by
  intro pos _
  show StepBounded pos toks.length (tkn toks pos f)
  unfold tkn
  cases hg : toks.get? pos with
  | none => exact stb_error
  | some t =>
    have hlt : pos < toks.length := by
      by_contra hh
      rw [List.get?_eq_none.mpr (Nat.le_of_not_lt hh)] at hg
      cases hg
    show StepBounded pos toks.length (tkn_hit pos (f t))
    cases hf : f t with
    | none => exact stb_fail (Nat.le_of_lt hlt)
    | some w => exact stb_success (Nat.le_succ pos) hlt

/-- `map` preserves boundedness. -/
theorem stb_map {T R : Type} {start len : Nat} {s : Step T} {f : T → R}
    (h : StepBounded start len s) : StepBounded start len (s.map f) := by
  cases s with
  | Success w m => exact stb_success (h.1 w m rfl).1 (h.1 w m rfl).2
  | Fail q =>
    have := h.2 q rfl
    constructor
    · intro v n hh; simp [Step.map] at hh
    · intro r hh
      simp only [Step.map] at hh
      injection hh with h1; subst h1; exact this
  | Error e => exact stb_error

/-- `then` preserves boundedness. -/
theorem stb_then_f {T R : Type} {start len : Nat} {s : Step T} {g : Nat → Step R}
    (hs : StepBounded start len s) (hg : PBounded len g) :
    StepBounded start len (s.then_f g) := by
  cases s with
  | Success w m =>
    obtain ⟨h1, h2⟩ := hs.1 w m rfl
    have hgm := hg m h2
    constructor
    · intro v n hh
      obtain ⟨h3, h4⟩ := hgm.1 v n hh
      exact ⟨Nat.le_trans h1 h3, h4⟩
    · intro q hh
      obtain ⟨h3, h4⟩ := hgm.2 q hh
      exact ⟨Nat.le_trans h1 h3, h4⟩
  | Fail q =>
    have := hs.2 q rfl
    constructor
    · intro v n hh; simp [Step.then_f] at hh
    · intro r hh
      simp only [Step.then_f] at hh
      injection hh with h1; subst h1; exact this
  | Error e => exact stb_error

/-- `then_zip` preserves boundedness. -/
theorem stb_then_zip {T R : Type} {start len : Nat} {s : Step T} {g : Nat → Step R}
    (hs : StepBounded start len s) (hg : PBounded len g) :
    StepBounded start len (s.then_zip g) := by
  cases s with
  | Success w m =>
    obtain ⟨h1, h2⟩ := hs.1 w m rfl
    have hgm := hg m h2
    simp only [Step.then_zip]
    cases hw : g m with
    | Success u k =>
      obtain ⟨h3, h4⟩ := hgm.1 u k hw
      exact stb_success (Nat.le_trans h1 h3) h4
    | Fail q =>
      obtain ⟨h3, h4⟩ := hgm.2 q hw
      constructor
      · intro v n hh; simp at hh
      · intro r hh; injection hh with hh1; subst hh1
        exact ⟨Nat.le_trans h1 h3, h4⟩
    | Error e => exact stb_error
  | Fail q =>
    have := hs.2 q rfl
    constructor
    · intro v n hh; simp [Step.then_zip] at hh
    · intro r hh
      simp only [Step.then_zip] at hh
      injection hh with h1; subst h1; exact this
  | Error e => exact stb_error

/-- `take_left` preserves boundedness. -/
theorem stb_take_left {T R : Type} {start len : Nat} {s : Step (T × R)}
    (hs : StepBounded start len s) : StepBounded start len s.take_left :=
  stb_map hs

/-- `take_right` preserves boundedness. -/
theorem stb_take_right {T R : Type} {start len : Nat} {s : Step (T × R)}
    (hs : StepBounded start len s) : StepBounded start len s.take_right :=
  stb_map hs

/-- `then_skip` preserves boundedness. -/
theorem stb_then_skip {T R : Type} {start len : Nat} {s : Step T} {g : Nat → Step R}
    (hs : StepBounded start len s) (hg : PBounded len g) :
    StepBounded start len (s.then_skip g) :=
  stb_take_left (stb_then_zip hs hg)

/-- `merge` preserves boundedness. -/
theorem stb_merge {T : Type} {start len : Nat} {s : Step (T × List T)}
    (hs : StepBounded start len s) : StepBounded start len s.merge :=
  stb_map hs

/-- `or_none` preserves boundedness (this is where the Fail half of the
invariant is needed: the recorded Fail position becomes a Success
position). -/
theorem stb_or_none {T : Type} {start len : Nat} {s : Step T}
    (hs : StepBounded start len s) : StepBounded start len s.or_none := by
  cases s with
  | Success w m => exact stb_success (hs.1 w m rfl).1 (hs.1 w m rfl).2
  | Fail q => exact stb_success (hs.2 q rfl).1 (hs.2 q rfl).2
  | Error e => exact stb_error

/-- `then_or_none_zip` preserves boundedness. -/
theorem stb_then_or_none_zip {T R : Type} {start len : Nat} {s : Step T}
    {g : Nat → Step (Option R)}
    (hs : StepBounded start len s) (hg : PBounded len g) :
    StepBounded start len (s.then_or_none_zip g) := by
  cases s with
  | Success w m =>
    obtain ⟨h1, h2⟩ := hs.1 w m rfl
    have hgm := hg m h2
    simp only [Step.then_or_none_zip]
    cases hw : g m with
    | Success u k =>
      obtain ⟨h3, h4⟩ := hgm.1 u k hw
      exact stb_success (Nat.le_trans h1 h3) h4
    | Fail q => exact stb_success h1 h2
    | Error e =>
      cases e with
      | ReachedEOF r => exact stb_success h1 h2
      | BadToken s1 a1 b1 => exact stb_error
      | FailedOnValidation m1 p1 => exact stb_error
      | FinishedOnFail => exact stb_error
      | UnreachedEOF r => exact stb_error
  | Fail q =>
    have := hs.2 q rfl
    constructor
    · intro v n hh; simp [Step.then_or_none_zip] at hh
    · intro r hh
      simp only [Step.then_or_none_zip] at hh
      injection hh with h1; subst h1; exact this
  | Error e => exact stb_error

/-- `then_or_val` preserves boundedness. -/
theorem stb_then_or_val {T R : Type} {start len : Nat} {s : Step T}
    {g : Nat → Step R} {d : R}
    (hs : StepBounded start len s) (hg : PBounded len g) :
    StepBounded start len (s.then_or_val g d) := by
  cases s with
  | Success w m =>
    obtain ⟨h1, h2⟩ := hs.1 w m rfl
    have hgm := hg m h2
    simp only [Step.then_or_val]
    cases hw : g m with
    | Success u k =>
      obtain ⟨h3, h4⟩ := hgm.1 u k hw
      exact stb_success (Nat.le_trans h1 h3) h4
    | Fail q => exact stb_success h1 h2
    | Error e =>
      cases e with
      | ReachedEOF r => exact stb_success h1 h2
      | BadToken s1 a1 b1 => exact stb_error
      | FailedOnValidation m1 p1 => exact stb_error
      | FinishedOnFail => exact stb_error
      | UnreachedEOF r => exact stb_error
  | Fail q =>
    have := hs.2 q rfl
    constructor
    · intro v n hh; simp [Step.then_or_val] at hh
    · intro r hh
      simp only [Step.then_or_val] at hh
      injection hh with h1; subst h1; exact this
  | Error e => exact stb_error

/-- `then_or_default_zip` preserves boundedness. -/
theorem stb_then_or_val_zip {T R : Type} {start len : Nat} {s : Step T}
    {g : Nat → Step R} {d : R}
    (hs : StepBounded start len s) (hg : PBounded len g) :
    StepBounded start len (s.then_or_val_zip g d) := by
  cases s with
  | Success w m =>
    obtain ⟨h1, h2⟩ := hs.1 w m rfl
    have hgm := hg m h2
    simp only [Step.then_or_val_zip]
    cases hw : g m with
    | Success u k =>
      obtain ⟨h3, h4⟩ := hgm.1 u k hw
      exact stb_success (Nat.le_trans h1 h3) h4
    | Fail q => exact stb_success h1 h2
    | Error e =>
      cases e with
      | ReachedEOF r => exact stb_success h1 h2
      | BadToken s1 a1 b1 => exact stb_error
      | FailedOnValidation m1 p1 => exact stb_error
      | FinishedOnFail => exact stb_error
      | UnreachedEOF r => exact stb_error
  | Fail q =>
    have := hs.2 q rfl
    constructor
    · intro v n hh; simp [Step.then_or_val_zip] at hh
    · intro r hh
      simp only [Step.then_or_val_zip] at hh
      injection hh with h1; subst h1; exact this
  | Error e => exact stb_error

/-- `or` preserves boundedness when the alternative is bounded from the
original position. -/
theorem stb_or_at {T : Type} {start len : Nat} {s : Step T} {alt : Nat → Step T}
    (hs : StepBounded start len s) (halt : StepBounded start len (alt start)) :
    StepBounded start len (s.or_at start alt) := by
  cases s with
  | Success w m => exact hs
  | Fail q => exact halt
  | Error e => exact hs

/-- `or_from` starts a bounded chain state. -/
theorem ab_or_from {T : Type} {start len : Nat} {s : Step T}
    (hs : StepBounded start len s) : AltBounded start len (s.or_from start) :=
  ⟨rfl, hs⟩

/-- An `or` on a bounded chain state stays bounded when the alternative is
bounded from the captured position. -/
theorem ab_or {T : Type} {start len : Nat} {a : Alt T} {alt : Nat → Step T}
    (ha : AltBounded start len a) (halt : StepBounded start len (alt start)) :
    AltBounded start len (a.or alt) := by
  obtain ⟨h1, h2⟩ := ha
  cases hc : a.current with
  | Fail q =>
    refine ⟨?_, ?_⟩
    · simp only [Alt.or, hc]; exact h1
    · simp only [Alt.or, hc]; rw [h1]; exact halt
  | Success v n =>
    rw [hc] at h2
    refine ⟨?_, ?_⟩
    · simp only [Alt.or, hc]; exact h1
    · simp only [Alt.or, hc]; exact h2
  | Error e =>
    rw [hc] at h2
    refine ⟨?_, ?_⟩
    · simp only [Alt.or, hc]; exact h1
    · simp only [Alt.or, hc]; exact h2

/-- Closing a bounded chain yields a bounded step. -/
theorem stb_into_step {T : Type} {start len : Nat} {a : Alt T}
    (ha : AltBounded start len a) : StepBounded start len a.into_step :=
  ha.2

/-- Weakening the starting position preserves boundedness. -/
theorem stb_weaken {T : Type} {start start2 len : Nat} {s : Step T}
    (h : start ≤ start2) (hs : StepBounded start2 len s) :
    StepBounded start len s := by
  constructor
  · intro v n hh
    obtain ⟨a, b⟩ := hs.1 v n hh
    exact ⟨Nat.le_trans h a, b⟩
  · intro q hh
    obtain ⟨a, b⟩ := hs.2 q hh
    exact ⟨Nat.le_trans h a, b⟩

/-- The repetition loop is bounded. -/
theorem stb_then_multi_loop {T : Type} {len : Nat} {g : Nat → Step T}
    (hg : PBounded len g) :
    ∀ (fuel pos : Nat), pos ≤ len → StepBounded pos len (then_multi_loop g fuel pos) := by
  intro fuel
  induction fuel with
  | zero => intro pos hpos; exact stb_success (Nat.le_refl _) hpos
  | succ f ih =>
    intro pos hpos
    cases hw : g pos with
    | Success v n =>
      obtain ⟨h1, h2⟩ := (hg pos hpos).1 v n hw
      have hin := ih n h2
      have heq : then_multi_loop g (f + 1) pos =
          (then_multi_loop g f n).map (fun l => v :: l) := by
        simp only [then_multi_loop, hw]
      rw [heq]
      exact stb_weaken h1 (stb_map hin)
    | Fail q =>
      have heq : then_multi_loop g (f + 1) pos = .Success [] pos := by
        simp only [then_multi_loop, hw]
      rw [heq]
      exact stb_success (Nat.le_refl _) hpos
    | Error e =>
      cases e with
      | ReachedEOF r =>
        have heq : then_multi_loop g (f + 1) pos = .Success [] pos := by
          simp only [then_multi_loop, hw]
        rw [heq]
        exact stb_success (Nat.le_refl _) hpos
      | BadToken s1 a1 b1 =>
        have heq : then_multi_loop g (f + 1) pos = .Error (.BadToken s1 a1 b1) := by
          simp only [then_multi_loop, hw]
        rw [heq]; exact stb_error
      | FailedOnValidation m1 p1 =>
        have heq : then_multi_loop g (f + 1) pos =
            .Error (.FailedOnValidation m1 p1) := by
          simp only [then_multi_loop, hw]
        rw [heq]; exact stb_error
      | FinishedOnFail =>
        have heq : then_multi_loop g (f + 1) pos = .Error .FinishedOnFail := by
          simp only [then_multi_loop, hw]
        rw [heq]; exact stb_error
      | UnreachedEOF r =>
        have heq : then_multi_loop g (f + 1) pos = .Error (.UnreachedEOF r) := by
          simp only [then_multi_loop, hw]
        rw [heq]; exact stb_error

/-- `then_multi_zip` preserves boundedness. -/
theorem stb_then_multi_zip {T R : Type} {start len : Nat} {s : Step T}
    {fuel : Nat} {g : Nat → Step R}
    (hs : StepBounded start len s) (hg : PBounded len g) :
    StepBounded start len (s.then_multi_zip fuel g) := by
  cases s with
  | Success w m =>
    obtain ⟨h1, h2⟩ := hs.1 w m rfl
    have hloop := stb_then_multi_loop hg fuel m h2
    simp only [Step.then_multi_zip]
    cases hl : then_multi_loop g fuel m with
    | Success l k =>
      obtain ⟨h3, h4⟩ := hloop.1 l k hl
      exact stb_success (Nat.le_trans h1 h3) h4
    | Fail q =>
      obtain ⟨h3, h4⟩ := hloop.2 q hl
      constructor
      · intro v n hh; simp at hh
      · intro r hh; injection hh with hh1; subst hh1
        exact ⟨Nat.le_trans h1 h3, h4⟩
    | Error e => exact stb_error
  | Fail q =>
    have := hs.2 q rfl
    constructor
    · intro v n hh; simp [Step.then_multi_zip] at hh
    · intro r hh
      simp only [Step.then_multi_zip] at hh
      injection hh with h1; subst h1; exact this
  | Error e => exact stb_error

/-- `zero_or_more` is bounded. -/
theorem stb_zero_or_more {T : Type} {len : Nat} {p : Nat → Step T}
    (hp : PBounded len p) (fuel pos : Nat) (hpos : pos ≤ len) :
    StepBounded pos len (zero_or_more fuel pos p) := by
  have hz : StepBounded pos len (((p pos).then_multi_zip fuel p).merge) :=
    stb_merge (stb_then_multi_zip (hp pos hpos) hp)
  unfold zero_or_more
  cases hw : ((p pos).then_multi_zip fuel p).merge with
  | Success v n =>
    obtain ⟨h1, h2⟩ := hz.1 v n hw
    exact stb_success h1 h2
  | Fail q => exact stb_success (Nat.le_refl _) hpos
  | Error e =>
    cases e with
    | ReachedEOF r => exact stb_success (Nat.le_refl _) hpos
    | BadToken s1 a1 b1 => exact stb_error
    | FailedOnValidation m1 p1 => exact stb_error
    | FinishedOnFail => exact stb_error
    | UnreachedEOF r => exact stb_error

/-- `one_or_more` is bounded. -/
theorem stb_one_or_more {T : Type} {len : Nat} {p : Nat → Step T}
    (hp : PBounded len p) (fuel pos : Nat) (hpos : pos ≤ len) :
    StepBounded pos len (one_or_more fuel pos p) := by
  have hz := stb_zero_or_more hp fuel pos hpos
  unfold one_or_more
  cases hw : zero_or_more fuel pos p with
  | Success v n =>
    cases v with
    | nil => exact stb_fail hpos
    | cons x xs =>
      obtain ⟨h1, h2⟩ := hz.1 _ n hw
      exact stb_success h1 h2
  | Fail q =>
    obtain ⟨h1, h2⟩ := hz.2 q hw
    constructor
    · intro v n hh; simp at hh
    · intro r hh; injection hh with hh1; subst hh1; exact ⟨h1, h2⟩
  | Error e => exact stb_error

/-- `seq!` is bounded. -/
theorem stb_seq_p {T S : Type} {len : Nat} {elem : Nat → Step T} {sep : Nat → Step S}
    (he : PBounded len elem) (hsep : PBounded len sep) (fuel pos : Nat)
    (hpos : pos ≤ len) : StepBounded pos len (seq_p fuel elem sep pos) :=
  stb_merge (stb_then_multi_zip (he pos hpos)
    (fun p hp => stb_then_f (hsep p hp) he))

/-- `seq!` with optional trailing separator is bounded. -/
theorem stb_seq_trail {T S : Type} {len : Nat} {elem : Nat → Step T}
    {sep : Nat → Step S}
    (he : PBounded len elem) (hsep : PBounded len sep) (fuel pos : Nat)
    (hpos : pos ≤ len) : StepBounded pos len (seq_trail fuel elem sep pos) :=
  stb_take_left (stb_then_or_none_zip (stb_seq_p he hsep fuel pos hpos)
    (fun p hp => stb_or_none (hsep p hp)))

/-- `wrap!` is bounded. -/
theorem stb_wrap3 {A B C : Type} {len : Nat} {l : Nat → Step A} {body : Nat → Step B}
    {r : Nat → Step C}
    (hl : PBounded len l) (hb : PBounded len body) (hr : PBounded len r)
    (pos : Nat) (hpos : pos ≤ len) : StepBounded pos len (wrap3 l body r pos) :=
  stb_then_skip (stb_then_f (hl pos hpos) hb) hr

/-- `wrap!` with a default body is bounded. -/
theorem stb_wrap3_or {A B C : Type} {len : Nat} {l : Nat → Step A}
    {body : Nat → Step B} {r : Nat → Step C} {d : B}
    (hl : PBounded len l) (hb : PBounded len body) (hr : PBounded len r)
    (pos : Nat) (hpos : pos ≤ len) : StepBounded pos len (wrap3_or l body d r pos) :=
  stb_then_skip (stb_then_or_val (hl pos hpos) hb) hr

/-- A value-less token match is bounded. -/
theorem pb_kw (toks : List Token) (k : Token) :
    PBounded toks.length (fun pos => kw toks pos k) :=
  pb_tkn toks _

/-- The identifier parser is bounded. -/
theorem pb_id (toks : List Token) : PBounded toks.length (fun pos => id toks pos) :=
  pb_tkn toks _

/-- The string literal parser is bounded. -/
theorem pb_text (toks : List Token) : PBounded toks.length (fun pos => text toks pos) :=
  pb_tkn toks _

/-- The number parser is bounded. -/
theorem pb_number (toks : List Token) :
    PBounded toks.length (fun pos => number toks pos) :=
  pb_tkn toks _

/-- The binary operator token parser is bounded. -/
theorem pb_sign (toks : List Token) : PBounded toks.length (fun pos => sign toks pos) :=
  pb_tkn toks _

/-- The unary operator token parser is bounded. -/
theorem pb_unary_sign (toks : List Token) :
    PBounded toks.length (fun pos => unary_sign toks pos) :=
  pb_tkn toks _

/-- The name list parser is bounded. -/
theorem pb_names (toks : List Token) (fuel : Nat) :
    PBounded toks.length (fun pos => names toks fuel pos) :=
  fun pos hpos => stb_seq_p (pb_id toks) (pb_kw toks .Comma) fuel pos hpos

/-- The identifier list parser is bounded. -/
theorem pb_id_list (toks : List Token) (fuel : Nat) :
    PBounded toks.length (fun pos => id_list toks fuel pos) :=
  fun pos hpos => stb_seq_p (pb_id toks) (pb_kw toks .Comma) fuel pos hpos

/-- The parameter list parser is bounded. -/
theorem pb_params (toks : List Token) (fuel : Nat) :
    PBounded toks.length (fun pos => params toks fuel pos) :=
  fun pos hpos =>
    stb_into_step (ab_or
      (ab_or_from (stb_map (stb_then_or_none_zip (pb_names toks fuel pos hpos)
        (fun p hp => stb_or_none (stb_then_f (pb_kw toks .Comma p hp)
          (pb_kw toks .EllipsisOut))))))
      (stb_map (pb_kw toks .EllipsisOut pos hpos)))

/-- The parenthesised parameter list parser is bounded. -/
theorem pb_fn_params (toks : List Token) (fuel : Nat) :
    PBounded toks.length (fun pos => fn_params toks fuel pos) :=
  fun pos hpos =>
    stb_wrap3_or (pb_kw toks .LParen) (pb_params toks fuel) (pb_kw toks .RParen)
      pos hpos

/-- The attributed name list parser is bounded. -/
theorem pb_attr_name_list (toks : List Token) (fuel : Nat) :
    PBounded toks.length (fun pos => attr_name_list toks fuel pos) :=
  fun pos hpos =>
    stb_seq_p
      (fun p hp => stb_map (stb_then_or_none_zip (pb_id toks p hp)
        (fun q hq => stb_or_none
          (stb_wrap3 (pb_kw toks .Lt) (pb_id toks) (pb_kw toks .Gt) q hq))))
      (pb_kw toks .Comma) fuel pos hpos

/-- The function name parser is bounded. -/
theorem pb_fn_name (toks : List Token) (fuel : Nat) :
    PBounded toks.length (fun pos => fn_name toks fuel pos) :=
  fun pos hpos =>
    stb_map (stb_then_or_none_zip
      (stb_seq_p (pb_id toks) (pb_kw toks .Dot) fuel pos hpos)
      (fun p hp => stb_or_none (stb_then_f (pb_kw toks .Colon p hp) (pb_id toks))))

/-- Every parser of the grammar bundle is bounded, at every fuel level. -/
theorem grammar_bounded (toks : List Token) :
    ∀ fuel, GrammarBounded toks.length (grammar toks fuel) := by
  intro fuel
  induction fuel with
  | zero =>
    refine ⟨?_, ?_, ?_, ?_, ?_, ?_, ?_, ?_, ?_, ?_, ?_, ?_⟩ <;>
      exact fun pos hpos => stb_fail hpos
  | succ f ih =>
    obtain ⟨ihE, ihA, ihT, ihEL, ihVL, ihNA, ihVS, ihV, ihVOE, ihFC, ihB, ihS⟩ := ih
    refine ⟨?_, ?_, ?_, ?_, ?_, ?_, ?_, ?_, ?_, ?_, ?_, ?_⟩
    · intro pos hpos
      exact stb_map (stb_then_multi_zip (ihA pos hpos)
        (fun p hp => stb_then_zip (pb_sign toks p hp) ihA))
    · intro pos hpos
      exact stb_into_step
        (ab_or
          (ab_or
            (ab_or
              (ab_or
                (ab_or_from
                  (stb_or_at
                    (stb_or_at (pb_tkn toks _ pos hpos)
                      (stb_map (pb_text toks pos hpos)))
                    (stb_map (pb_number toks pos hpos))))
                (stb_map (stb_then_skip
                  (stb_then_zip
                    (stb_then_f (pb_kw toks .Function pos hpos)
                      (pb_fn_params toks f))
                    ihB)
                  (pb_kw toks .End))))
              (stb_map (stb_then_multi_zip (ihVOE pos hpos) ihNA)))
            (stb_map (stb_then_zip (pb_unary_sign toks pos hpos) ihE)))
          (stb_map (ihT pos hpos)))
    · intro pos hpos
      exact stb_map (stb_wrap3_or (pb_kw toks .LBrace)
        (fun p hp => stb_seq_trail
          (fun p1 hp1 => stb_into_step (ab_or
            (ab_or
              (ab_or_from (stb_map (stb_then_zip
                (stb_then_skip
                  (stb_then_skip (stb_then_f (pb_kw toks .LBrack p1 hp1) ihE)
                    (pb_kw toks .RBrack))
                  (pb_kw toks .Assign))
                ihE)))
              (stb_map (stb_then_zip (stb_then_skip (pb_id toks p1 hp1)
                (pb_kw toks .Assign)) ihE)))
            (stb_map (ihE p1 hp1))))
          (fun p1 hp1 => stb_or_at (pb_kw toks .Comma p1 hp1)
            (pb_kw toks .Semi p1 hp1))
          f p hp)
        (pb_kw toks .RBrace) pos hpos)
    · intro pos hpos
      exact stb_seq_p ihE (pb_kw toks .Comma) f pos hpos
    · intro pos hpos
      exact stb_seq_p ihV (pb_kw toks .Comma) f pos hpos
    · intro pos hpos
      exact stb_map (stb_then_zip
        (stb_or_none (stb_then_f (pb_kw toks .Colon pos hpos) (pb_id toks)))
        (fun p hp => stb_into_step (ab_or
          (ab_or
            (ab_or_from (stb_map (stb_then_skip
              (stb_then_or_val (pb_kw toks .LParen p hp) ihEL)
              (pb_kw toks .RParen))))
            (stb_map (ihT p hp)))
          (stb_map (pb_text toks p hp)))))
    · intro pos hpos
      exact stb_map (stb_then_zip
        (stb_zero_or_more ihNA f pos hpos)
        (fun p hp => stb_into_step (ab_or
          (ab_or_from
            (stb_map (stb_wrap3 (pb_kw toks .LBrack) ihE (pb_kw toks .RBrack) p hp)))
          (stb_map (stb_then_f (pb_kw toks .Dot p hp) (pb_id toks))))))
    · intro pos hpos
      exact stb_map (stb_then_zip
        (stb_or_at (stb_map (pb_id toks pos hpos))
          (stb_map (stb_then_zip
            (stb_wrap3 (pb_kw toks .LParen) ihE (pb_kw toks .RParen) pos hpos)
            ihVS)))
        (fun p hp => stb_zero_or_more ihVS f p hp))
    · intro pos hpos
      exact stb_into_step (ab_or
        (ab_or_from (stb_map (ihV pos hpos)))
        (stb_map (stb_wrap3 (pb_kw toks .LParen) ihE (pb_kw toks .RParen) pos hpos)))
    · intro pos hpos
      exact stb_map (stb_then_zip (ihVOE pos hpos)
        (fun p hp => stb_one_or_more ihNA f p hp))
    · intro pos hpos
      exact stb_map (stb_then_or_none_zip
        (stb_zero_or_more ihS f pos hpos)
        (fun p hp => stb_or_none (stb_take_left (stb_then_or_none_zip
          (stb_then_or_val (pb_kw toks .Return p hp) ihEL)
          (fun q hq => stb_or_none (pb_kw toks .Semi q hq))))))
    · intro pos hpos
      exact stb_into_step
        (ab_or (ab_or (ab_or (ab_or (ab_or (ab_or (ab_or (ab_or (ab_or (ab_or
          (ab_or (ab_or (ab_or
            (ab_or_from (pb_tkn toks _ pos hpos))
            (stb_map (stb_then_zip
              (stb_then_skip (ihVL pos hpos) (pb_kw toks .Assign)) ihEL)))
          (stb_map (ihFC pos hpos)))
          (stb_map (stb_wrap3 (pb_kw toks .DColon) (pb_id toks)
            (pb_kw toks .DColon) pos hpos)))
          (pb_tkn toks _ pos hpos))
          (stb_map (stb_then_f (pb_kw toks .Goto pos hpos) (pb_id toks))))
          (stb_map (stb_wrap3 (pb_kw toks .Do) ihB (pb_kw toks .End) pos hpos)))
          (stb_map (stb_then_zip (stb_then_f (pb_kw toks .While pos hpos) ihE)
            (fun q hq => stb_wrap3 (pb_kw toks .Do) ihB (pb_kw toks .End) q hq))))
          (stb_map (stb_then_zip
            (stb_then_skip (stb_then_f (pb_kw toks .Repeat pos hpos) ihB)
              (pb_kw toks .Until))
            ihE)))
          (stb_map (stb_then_skip (stb_then_or_none_zip
            (stb_then_multi_zip
              (stb_map (stb_then_zip
                (stb_wrap3 (pb_kw toks .If) ihE (pb_kw toks .Then) pos hpos) ihB))
              (fun q hq => stb_map (stb_then_zip
                (stb_wrap3 (pb_kw toks .Elseif) ihE (pb_kw toks .Then) q hq) ihB)))
            (fun q hq => stb_or_none (stb_then_f (pb_kw toks .Else q hq) ihB)))
            (pb_kw toks .End))))
          (stb_into_step (ab_or
            (ab_or_from (stb_map (stb_then_skip (stb_then_zip
              (stb_then_skip (stb_then_or_none_zip
                (stb_then_zip
                  (stb_then_skip
                    (stb_then_zip
                      (stb_then_skip
                        (stb_then_f (pb_kw toks .For pos hpos) (pb_id toks))
                        (pb_kw toks .Assign))
                      ihE)
                    (pb_kw toks .Comma))
                  ihE)
                (fun r hr => stb_or_none
                  (stb_then_f (pb_kw toks .Comma r hr) ihE)))
                (pb_kw toks .Do))
              ihB)
              (pb_kw toks .End))))
            (stb_map (stb_then_skip (stb_then_zip
              (stb_then_skip (stb_then_zip
                (stb_then_skip
                  (stb_then_f (pb_kw toks .For pos hpos) (pb_names toks f))
                  (pb_kw toks .In))
                ihEL)
                (pb_kw toks .Do))
              ihB)
              (pb_kw toks .End))))))
          (stb_map (stb_then_skip (stb_then_zip
            (stb_then_zip
              (stb_then_f (pb_kw toks .Function pos hpos) (pb_fn_name toks f))
              (pb_fn_params toks f))
            ihB)
            (pb_kw toks .End))))
          (stb_map (stb_then_skip (stb_then_zip
            (stb_then_zip
              (stb_then_f
                (stb_then_f (pb_kw toks .Local pos hpos) (pb_kw toks .Function))
                (pb_id toks))
              (pb_fn_params toks f))
            ihB)
            (pb_kw toks .End))))
          (stb_map (stb_then_or_val_zip
            (stb_then_f (pb_kw toks .Local pos hpos) (pb_attr_name_list toks f))
            (fun q hq => stb_then_f (pb_kw toks .Assign q hq) ihEL))))

/-- Projecting the Success half of the strengthened invariant. -/
theorem parser_bounded_of_pbounded {T : Type} {len : Nat} {p : Nat → Step T}
    (h : PBounded len p) : ParserBounded len p :=
  fun pos hpos => (h pos hpos).1

/-- C9 (amended): for every grammar parser function and every starting
position that is at most the token-stream length, a `Success(_, next)`
satisfies `start ≤ next ≤ stream length`; every parser of the embedding is
a pure function of the stream and the position, so a Fail mutates nothing
and re-running from the same position trivially yields the same result. -/
theorem C9_parser_position_invariant (toks : List Token) (fuel : Nat) :
    (∀ (T : Type) (f : Token → Option T),
      ParserBounded toks.length (fun pos => tkn toks pos f)) ∧
    ParserBounded toks.length (fun pos => id toks pos) ∧
    ParserBounded toks.length (fun pos => text toks pos) ∧
    ParserBounded toks.length (fun pos => number toks pos) ∧
    ParserBounded toks.length (fun pos => sign toks pos) ∧
    ParserBounded toks.length (fun pos => unary_sign toks pos) ∧
    ParserBounded toks.length (fun pos => names toks fuel pos) ∧
    ParserBounded toks.length (fun pos => id_list toks fuel pos) ∧
    ParserBounded toks.length (fun pos => params toks fuel pos) ∧
    ParserBounded toks.length (fun pos => fn_params toks fuel pos) ∧
    ParserBounded toks.length (fun pos => attr_name_list toks fuel pos) ∧
    ParserBounded toks.length (fun pos => fn_name toks fuel pos) ∧
    ParserBounded toks.length (expr toks fuel) ∧
    ParserBounded toks.length (atom toks fuel) ∧
    ParserBounded toks.length (table_const toks fuel) ∧
    ParserBounded toks.length (expr_list toks fuel) ∧
    ParserBounded toks.length (var_list toks fuel) ∧
    ParserBounded toks.length (name_args toks fuel) ∧
    ParserBounded toks.length (var_suffix toks fuel) ∧
    ParserBounded toks.length (var toks fuel) ∧
    ParserBounded toks.length (var_or_expr toks fuel) ∧
    ParserBounded toks.length (fn_call toks fuel) ∧
    ParserBounded toks.length (block toks fuel) ∧
    ParserBounded toks.length (statement toks fuel) := by
  obtain ⟨hE, hA, hT, hEL, hVL, hNA, hVS, hV, hVOE, hFC, hB, hS⟩ :=
    grammar_bounded toks fuel
  exact ⟨fun T f => parser_bounded_of_pbounded (pb_tkn toks f),
    parser_bounded_of_pbounded (pb_id toks),
    parser_bounded_of_pbounded (pb_text toks),
    parser_bounded_of_pbounded (pb_number toks),
    parser_bounded_of_pbounded (pb_sign toks),
    parser_bounded_of_pbounded (pb_unary_sign toks),
    parser_bounded_of_pbounded (pb_names toks fuel),
    parser_bounded_of_pbounded (pb_id_list toks fuel),
    parser_bounded_of_pbounded (pb_params toks fuel),
    parser_bounded_of_pbounded (pb_fn_params toks fuel),
    parser_bounded_of_pbounded (pb_attr_name_list toks fuel),
    parser_bounded_of_pbounded (pb_fn_name toks fuel),
    parser_bounded_of_pbounded hE,
    parser_bounded_of_pbounded hA,
    parser_bounded_of_pbounded hT,
    parser_bounded_of_pbounded hEL,
    parser_bounded_of_pbounded hVL,
    parser_bounded_of_pbounded hNA,
    parser_bounded_of_pbounded hVS,
    parser_bounded_of_pbounded hV,
    parser_bounded_of_pbounded hVOE,
    parser_bounded_of_pbounded hFC,
    parser_bounded_of_pbounded hB,
    parser_bounded_of_pbounded hS⟩

/-- C9 witness: on the one-token stream `[nil]`, the expression parser
started at 0 succeeds at position 1, and the invariant instantiates to
`0 ≤ 1 ∧ 1 ≤ 1`. -/
theorem C9_parser_position_invariant_witness : (0 : Nat) ≤ 1 ∧ (1 : Nat) ≤ 1 :=
  (C9_parser_position_invariant [Token.Nil]
      3).2.2.2.2.2.2.2.2.2.2.2.2.1 0 (by decide) Expression.Nil 1 rfl

end Lua
